import Mathlib

/-!
Verification of the DLBMT load-balancing engine (`dlbmt/real_dlbmt_engine.py`).

The engine's numeric state is embedded shallowly over `ℚ`: Python floats
become rationals, dictionaries become association lists kept in insertion
order (Python dicts iterate in insertion order), and the `float("inf")`
sentinel used for migration efficiency becomes `Option ℚ` with `none`
standing for infinity.  The external actuator call (`subprocess.run` of
`ovs-vsctl`) is a boolean parameter: `true` models a successful call,
`false` a `CalledProcessError`/`TimeoutExpired`.  Wall-clock timestamps and
logging are omitted; `migration_history` appends are modelled by the
`Option MigrationRecord` component of the results of `execute_migration`
and `run_load_balancing` (`some r` means exactly `r` is appended).
-/

namespace DLBMT



/-- Multi-level load thresholds `T_idle, T_normal, T_high` (source line 30). -/
def THRESHOLDS : List ℚ := [25, 50, 75]

/-- Controller saturation levels (source lines 33-37). -/
inductive ControllerLevel
  | IDLE
  | NORMAL
  | HIGH
  | OVERLOAD
deriving DecidableEq

/-- Default resource weight coefficient α (CPU), source line 50. -/
def DEFAULT_ALPHA : ℚ := 2/5

/-- Default resource weight coefficient β (memory), source line 51. -/
def DEFAULT_BETA : ℚ := 3/10

/-- Default resource weight coefficient γ (bandwidth), source line 52. -/
def DEFAULT_GAMMA : ℚ := 3/10

/-- Traffic-to-CPU conversion factor (source line 69): 1.5 CPU units per pkt/s. -/
def TRAFFIC_TO_CPU_FACTOR : ℚ := 3/2

/-- Traffic-to-memory conversion factor (source line 70): 0.4 MB per pkt/s. -/
def TRAFFIC_TO_MEM_FACTOR : ℚ := 2/5

/-- Traffic-to-bandwidth conversion factor (source line 71): 0.25 Mbps per pkt/s. -/
def TRAFFIC_TO_BW_FACTOR : ℚ := 1/4

/-- The `Switch` dataclass (source lines 78-89); rendering coordinates and
`flow_count` are irrelevant to every claim and omitted. -/
structure Switch where
  id : String
  dpid : Nat
  controller_id : String
  packet_in_rate : ℚ
  load_cpu : ℚ
  load_mem : ℚ
  load_bw : ℚ
deriving DecidableEq

/-- The `Controller` dataclass (source lines 92-111); rendering coordinates,
`rpc_port` and `last_update` are irrelevant to every claim and omitted. -/
structure Controller where
  id : String
  active : Bool
  capacity_cpu : ℚ
  capacity_mem : ℚ
  capacity_bw : ℚ
  cpu_utilization : ℚ
  mem_utilization : ℚ
  bw_utilization : ℚ
  load_percentage : ℚ
  level : ControllerLevel
deriving DecidableEq

/-- The `MigrationRecord` dataclass (source lines 114-127) minus the
wall-clock timestamp.  The Python code appends `record.to_dict()` (which
only rounds the numeric fields, a monotone operation) to
`migration_history`; we keep the unrounded record. -/
structure MigrationRecord where
  switch_id : String
  source_controller : String
  target_controller : String
  source_load_before : ℚ
  source_load_after : ℚ
  target_load_before : ℚ
  target_load_after : ℚ
  migration_efficiency : ℚ
  migration_cost : ℚ
  imbalance_before : ℚ
  imbalance_after : ℚ
deriving DecidableEq

/-- The diagnostic dict built by `_find_best_migration` (source lines 567-573). -/
structure MigInfo where
  cost : ℚ
  efficiency : ℚ
  pred_src : ℚ
  pred_tgt : ℚ
  dc_before : ℚ
deriving DecidableEq

/-- The engine state: weight coefficients `a`, `b`, `c` (constructor
arguments `alpha`, `beta`, `gamma`), the controller and switch registries in
insertion order, the `dpid -> switch id` map, and the distance matrix
(modelled as a total function, with the Python `.get(..., 1.0)` default
folded into the concrete function supplied). -/
structure Engine where
  a : ℚ
  b : ℚ
  c : ℚ
  controllers : List Controller
  switches : List Switch
  dpid_map : List (Nat × String)
  distances : String → String → ℚ

/-- Switches of a controller's domain: `[s for s in self.switches.values()
if s.controller_id == cid]` (source lines 334-335, 360-361, 531-532). -/
def dom_switches (E : Engine) (cid : String) : List Switch :=
  E.switches.filter (fun s => s.controller_id == cid)

/-- Level classification from `load_percentage` (source lines 383-390). -/
def level_of_load (lp : ℚ) : ControllerLevel :=
  if lp < THRESHOLDS.getD 0 0 then ControllerLevel.IDLE
  else if lp < THRESHOLDS.getD 1 0 then ControllerLevel.NORMAL
  else if lp < THRESHOLDS.getD 2 0 then ControllerLevel.HIGH
  else ControllerLevel.OVERLOAD

/-- `_compute_controller_load` (source lines 353-390): paper Eq 4, the
weighted sum of capacity-normalized (and clamped) aggregate resource use of
the controller's domain, scaled to a 0-100 percentage. -/
def compute_controller_load (E : Engine) (ctrl : Controller) : Controller :=
  let dom := dom_switches E ctrl.id
  if dom.isEmpty then
    { ctrl with load_percentage := 0, level := ControllerLevel.IDLE }
  else
    let total_cpu := (dom.map Switch.load_cpu).sum
    let total_mem := (dom.map Switch.load_mem).sum
    let total_bw := (dom.map Switch.load_bw).sum
    let r_cpu := min (total_cpu / ctrl.capacity_cpu) 1
    let r_mem := min (total_mem / ctrl.capacity_mem) 1
    let r_bw := min (total_bw / ctrl.capacity_bw) 1
    let load := (E.a * r_cpu + E.b * r_mem + E.c * r_bw) * 100
    let lp := min load 100
    { ctrl with load_percentage := lp, level := level_of_load lp }

/-- Per-switch update performed for one telemetry entry that resolved to
switch id `sid` (source lines 315-327): skipped entirely unless the switch
is currently owned by the reporting controller. -/
def entry_update (cid : String) (sid : String) (count : ℚ) (s : Switch) : Switch :=
  if s.id == sid && s.controller_id == cid then
    { s with packet_in_rate := count,
             load_cpu := count * TRAFFIC_TO_CPU_FACTOR,
             load_mem := count * TRAFFIC_TO_MEM_FACTOR,
             load_bw := count * TRAFFIC_TO_BW_FACTOR }
  else s

/-- Resolve a dpid through `self.dpid_map` (source line 307). -/
def dpid_lookup (m : List (Nat × String)) (d : Nat) : Option String :=
  (m.find? (fun p => p.1 == d)).map Prod.snd

/-- Process one `(dpid, count)` payload entry against the switch registry
(source lines 301-327).  Unresolved dpids are skipped. -/
def apply_entry (E : Engine) (cid : String) (sws : List Switch) (e : Nat × ℚ) : List Switch :=
  match dpid_lookup E.dpid_map e.1 with
  | none => sws
  | some sid => sws.map (entry_update cid sid e.2)

/-- `update_controller_metrics` (source lines 275-347): ingest one telemetry
payload `{dpid -> packet count}` reported by controller `cid`.  Unknown
controller ids are dropped; per-switch rates and projected loads are written
only for switches owned by `cid`; then the reporting controller's
utilizations and weighted load are recomputed. -/
def update_controller_metrics (E : Engine) (cid : String) (payload : List (Nat × ℚ)) : Engine :=
  if (E.controllers.find? (fun c => c.id == cid)).isNone then E
  else
    let sws' := payload.foldl (apply_entry E cid) E.switches
    let E1 : Engine := { E with switches := sws' }
    { E1 with controllers := E1.controllers.map (fun c =>
        if c.id == cid then
          let dom := dom_switches E1 cid
          let tc := (dom.map Switch.load_cpu).sum
          let tm := (dom.map Switch.load_mem).sum
          let tb := (dom.map Switch.load_bw).sum
          compute_controller_load E1
            { c with cpu_utilization := min (tc / c.capacity_cpu * 100) 100,
                     mem_utilization := min (tm / c.capacity_mem * 100) 100,
                     bw_utilization := min (tb / c.capacity_bw * 100) 100 }
        else c) }

/-- `_switch_resource_usage` (source lines 408-416): paper Eq 5, the
weighted per-resource usage of a switch on a controller.  Each ratio is
guarded against non-positive capacities, and is NOT clamped above. -/
def switch_resource_usage (E : Engine) (s : Switch) (ctrl : Controller) : ℚ :=
  let r_cpu := if ctrl.capacity_cpu > 0 then s.load_cpu / ctrl.capacity_cpu else 0
  let r_mem := if ctrl.capacity_mem > 0 then s.load_mem / ctrl.capacity_mem else 0
  let r_bw := if ctrl.capacity_bw > 0 then s.load_bw / ctrl.capacity_bw else 0
  E.a * r_cpu + E.b * r_mem + E.c * r_bw

/-- `_switch_resource_on_target` (source lines 422-431): paper Eq 7, same
formula as Eq 5 but evaluated against a prospective target's capacities. -/
def switch_resource_on_target (E : Engine) (s : Switch) (target : Controller) : ℚ :=
  let r_cpu := if target.capacity_cpu > 0 then s.load_cpu / target.capacity_cpu else 0
  let r_mem := if target.capacity_mem > 0 then s.load_mem / target.capacity_mem else 0
  let r_bw := if target.capacity_bw > 0 then s.load_bw / target.capacity_bw else 0
  E.a * r_cpu + E.b * r_mem + E.c * r_bw

/-- The guarded per-resource ratio shared by Eq 5 and Eq 7 (source lines
413-415 and 428-430): `load / capacity` when the capacity is strictly
positive, and 0 otherwise. -/
def res_ratio (load cap : ℚ) : ℚ := if cap > 0 then load / cap else 0

/-- `_migration_cost` (source lines 437-445): paper Eq 6 with an epsilon. -/
def migration_cost (E : Engine) (s : Switch) (source target : Controller) : ℚ :=
  E.distances s.id target.id * (switch_resource_usage E s source + 1/1000)

/-- `_pairwise_imbalance` (source lines 451-461): paper Eq 8,
`|L(a)-L(b)| / max(L(a),L(b))`, with a 0.01 dead zone. -/
def pairwise_imbalance (c1 c2 : Controller) : ℚ :=
  let l1 := c1.load_percentage
  let l2 := c2.load_percentage
  let max_load := max l1 l2
  if max_load < 1/100 then 0 else |l1 - l2| / max_load

/-- All unordered pairs `(active[i], active[j])`, `i < j`, in iteration
order (source lines 476-478). -/
def all_pairs : List Controller → List (Controller × Controller)
  | [] => []
  | x :: xs => xs.map (fun y => (x, y)) ++ all_pairs xs

/-- `_global_imbalance` (source lines 467-480): paper Eq 9, the maximum
pairwise imbalance over active controllers, 0 for fewer than two. -/
def global_imbalance (E : Engine) : ℚ :=
  let active := E.controllers.filter (fun c => c.active)
  if active.length < 2 then 0
  else (all_pairs active).foldl (fun m p => max m (pairwise_imbalance p.1 p.2)) 0

/-- The pairwise-imbalance formula on two bare load values (the body shared
by `_pairwise_imbalance` and the `dc_after` computation at source
lines 505-509). -/
def dc_pair (x y : ℚ) : ℚ :=
  if max x y < 1/100 then 0 else |x - y| / max x y

/-- `_migration_efficiency` (source lines 486-515): paper Eq 10, migration
cost divided by the predicted pairwise-imbalance improvement; `none` models
the `float("inf")` returned when the improvement is at most 0.001. -/
def migration_efficiency (E : Engine) (s : Switch) (source target : Controller) : Option ℚ :=
  let cost := migration_cost E s source target
  let sw_usage_source := switch_resource_usage E s source
  let sw_usage_target := switch_resource_on_target E s target
  let pred_source_load := max (source.load_percentage - sw_usage_source * 100) 0
  let pred_target_load := min (target.load_percentage + sw_usage_target * 100) 100
  let dc_before := pairwise_imbalance source target
  let dc_after := dc_pair pred_source_load pred_target_load
  let delta_dc := dc_before - dc_after
  if delta_dc ≤ 1/1000 then none
  else some (cost / delta_dc)

/-- Comparison `x < y` on efficiencies where `none` is `float("inf")`:
`inf < anything` is false, `finite < inf` is true. -/
def eff_lt (x y : Option ℚ) : Bool :=
  match x, y with
  | none, _ => false
  | some _, none => true
  | some u, some v => decide (u < v)

/-- The diagnostic payload stored for a winning candidate by
`_find_best_migration` (source lines 562-573). -/
def mk_info (E : Engine) (source : Controller) (sw : Switch) (tgt : Controller)
    (e : ℚ) : MigInfo :=
  { cost := migration_cost E sw source tgt,
    efficiency := e,
    pred_src := max (source.load_percentage - switch_resource_usage E sw source * 100) 0,
    pred_tgt := min (tgt.load_percentage + switch_resource_on_target E sw tgt * 100) 100,
    dc_before := pairwise_imbalance source tgt }

/-- One step of the candidate scan of `_find_best_migration` (source lines
549-573): the safety filter rejects candidates whose predicted
post-migration target load reaches `THRESHOLDS[2]`; among the survivors the
running strictly-smaller-efficiency minimum is kept. -/
def fbm_step (E : Engine) (source : Controller)
    (acc : Option (Switch × Controller × ℚ × MigInfo) × Option ℚ)
    (p : Switch × Controller) : Option (Switch × Controller × ℚ × MigInfo) × Option ℚ :=
  let sw := p.1
  let tgt := p.2
  let added_load := switch_resource_on_target E sw tgt * 100
  let pred_target := tgt.load_percentage + added_load
  if pred_target ≥ THRESHOLDS.getD 2 0 then acc
  else
    let eff := migration_efficiency E sw source tgt
    if eff_lt eff acc.2 then
      match eff with
      | none => acc
      | some e => (some (sw, tgt, e, mk_info E source sw tgt e), some e)
    else acc

/-- Candidate targets of `_find_best_migration` (source lines 538-541). -/
def fbm_targets (E : Engine) (source : Controller) : List Controller :=
  E.controllers.filter (fun c =>
    c.active && !(c.id == source.id) &&
      (c.level == ControllerLevel.IDLE || c.level == ControllerLevel.NORMAL))

/-- `_find_best_migration` (source lines 521-575): scan the source's domain
against all idle/normal targets in iteration order and return the best
(filter-passing, finite-efficiency) candidate, or `none`. -/
def find_best_migration (E : Engine) (source : Controller) :
    Option (Switch × Controller × ℚ × MigInfo) :=
  let dom := dom_switches E source.id
  if dom.isEmpty then none
  else
    let targets := fbm_targets E source
    if targets.isEmpty then none
    else
      let cands := dom.flatMap (fun sw => targets.map (fun t => (sw, t)))
      (cands.foldl (fbm_step E source) (none, none)).1

/-- The ownership flip performed at source line 602: re-home the switch
with `sw.id` to `tgtid` in the switch registry. -/
def reassign (E : Engine) (sw : Switch) (tgtid : String) : Engine :=
  { E with switches := E.switches.map (fun s =>
      if s.id == sw.id then { s with controller_id := tgtid } else s) }

/-- `_execute_migration` (source lines 581-628).  The actuator invocation is
the boolean `actuator_ok`; when it is `false` (command failure or timeout)
the function returns before any state is touched.  On success the switch is
re-homed, both involved controllers are recomputed against the new
assignment, and the migration record is produced (modelling the
`migration_history` append). -/
def execute_migration (E : Engine) (sw : Switch) (source target : Controller)
    (data : MigInfo) (actuator_ok : Bool) : Engine × Option MigrationRecord :=
  let dc_before := data.dc_before
  if !actuator_ok then (E, none)
  else
    let E1 : Engine := reassign E sw target.id
    let source' := compute_controller_load E1 source
    let target' := compute_controller_load E1 target
    let E2 : Engine := { E1 with controllers := E1.controllers.map (fun c =>
      if c.id == source.id then source'
      else if c.id == target.id then target' else c) }
    let dc_after := pairwise_imbalance source' target'
    (E2, some
      { switch_id := sw.id,
        source_controller := source.id,
        target_controller := target.id,
        source_load_before := data.pred_src,
        source_load_after := source'.load_percentage,
        target_load_before := data.pred_tgt,
        target_load_after := target'.load_percentage,
        migration_efficiency := data.efficiency,
        migration_cost := data.cost,
        imbalance_before := dc_before,
        imbalance_after := dc_after })

/-- Refresh every controller's load and level (source lines 642-643). -/
def recompute_all (E : Engine) : Engine :=
  { E with controllers := E.controllers.map (compute_controller_load E) }

/-- The HIGH/OVERLOAD source candidates of `run_load_balancing`
(source lines 646-648). -/
def rlb_sources (E : Engine) : List Controller :=
  E.controllers.filter (fun c =>
    c.active && (c.level == ControllerLevel.HIGH || c.level == ControllerLevel.OVERLOAD))

/-- One source-scan step of `run_load_balancing` (source lines 657-663):
keep the strictly best `find_best_migration` result so far. -/
def rlb_step (E : Engine)
    (acc : Option (Switch × Controller × Controller × MigInfo) × Option ℚ)
    (src : Controller) : Option (Switch × Controller × Controller × MigInfo) × Option ℚ :=
  match find_best_migration E src with
  | none => acc
  | some (sw, tgt, eff, extra) =>
    if eff_lt (some eff) acc.2 then (some (sw, src, tgt, extra), some eff) else acc

/-- The globally-best candidate selection of `run_load_balancing` (source
lines 653-663): scan sources in iteration order and keep the strictly best
`find_best_migration` result. -/
def select_best (E : Engine) : Option (Switch × Controller × Controller × MigInfo) :=
  ((rlb_sources E).foldl (rlb_step E)
    ((none : Option (Switch × Controller × Controller × MigInfo)), (none : Option ℚ))).1

/-- `run_load_balancing` (source lines 634-668): recompute all loads, find
the globally best migration across HIGH/OVERLOAD sources, and execute it
(at most one migration per cycle).  Returns the possibly-updated engine and
the appended migration record, if any. -/
def run_load_balancing (E : Engine) (actuator_ok : Bool) : Engine × Option MigrationRecord :=
  let E' := recompute_all E
  match select_best E' with
  | none => (E', none)
  | some (sw, src, tgt, extra) => execute_migration E' sw src tgt extra actuator_ok

/-! Derived quantities named for the proofs below. -/

/-- Aggregate CPU load of a controller's domain. -/
def dom_sum_cpu (E : Engine) (cid : String) : ℚ :=
  ((dom_switches E cid).map Switch.load_cpu).sum

/-- Aggregate memory load of a controller's domain. -/
def dom_sum_mem (E : Engine) (cid : String) : ℚ :=
  ((dom_switches E cid).map Switch.load_mem).sum

/-- Aggregate bandwidth load of a controller's domain. -/
def dom_sum_bw (E : Engine) (cid : String) : ℚ :=
  ((dom_switches E cid).map Switch.load_bw).sum

/-- The weighted clamped load of `_compute_controller_load` before the final
cap at 100 (the value `load` at source line 379). -/
def raw_load (E : Engine) (ctrl : Controller) : ℚ :=
  (E.a * min (dom_sum_cpu E ctrl.id / ctrl.capacity_cpu) 1 +
   E.b * min (dom_sum_mem E ctrl.id / ctrl.capacity_mem) 1 +
   E.c * min (dom_sum_bw E ctrl.id / ctrl.capacity_bw) 1) * 100

/-! Builders for the concrete scenarios used in counterexamples and
witnesses.  `mk_sw` derives the projected per-resource loads from the
packet-in rate exactly as telemetry ingest does (source lines 325-327). -/

/-- A fresh controller with given id and capacity vector. -/
def mk_ctrl (cid : String) (cc cm cb : ℚ) : Controller :=
  { id := cid, active := true, capacity_cpu := cc, capacity_mem := cm, capacity_bw := cb,
    cpu_utilization := 0, mem_utilization := 0, bw_utilization := 0,
    load_percentage := 0, level := ControllerLevel.IDLE }

/-- A switch with loads derived from its packet-in rate via the fixed
conversion factors. -/
def mk_sw (sid : String) (d : Nat) (cid : String) (rate : ℚ) : Switch :=
  { id := sid, dpid := d, controller_id := cid, packet_in_rate := rate,
    load_cpu := rate * TRAFFIC_TO_CPU_FACTOR,
    load_mem := rate * TRAFFIC_TO_MEM_FACTOR,
    load_bw := rate * TRAFFIC_TO_BW_FACTOR }

/-- An all-zero migration record, used only as an `Option.getD` default. -/
def zero_rec : MigrationRecord :=
  { switch_id := "", source_controller := "", target_controller := "",
    source_load_before := 0, source_load_after := 0, target_load_before := 0,
    target_load_after := 0, migration_efficiency := 0, migration_cost := 0,
    imbalance_before := 0, imbalance_after := 0 }

def c9_ctrl : Controller := mk_ctrl "cz" 0 4096 1000

def c9_sw : Switch := mk_sw "sz" 1 "cz" 5

def c9_eng : Engine :=
  { a := DEFAULT_ALPHA, b := DEFAULT_BETA, c := DEFAULT_GAMMA,
    controllers := [c9_ctrl], switches := [c9_sw],
    dpid_map := [(1, "sz")], distances := fun _ _ => 1 }

def c2_ctrl : Controller := mk_ctrl "c1" 100 4096 1000

def c2_sw : Switch := mk_sw "s1" 1 "c1" 700

def c2_eng : Engine :=
  { a := DEFAULT_ALPHA, b := DEFAULT_BETA, c := DEFAULT_GAMMA,
    controllers := [c2_ctrl], switches := [c2_sw],
    dpid_map := [(1, "s1")], distances := fun _ _ => 1 }

def c2w_sw : Switch := mk_sw "s1" 1 "c1" 10

def c10_eng : Engine :=
  { a := DEFAULT_ALPHA, b := DEFAULT_BETA, c := DEFAULT_GAMMA,
    controllers := [{ mk_ctrl "c1" 100 4096 1000 with load_percentage := 30 },
                    { mk_ctrl "c2" 100 4096 1000 with load_percentage := 10 }],
    switches := [], dpid_map := [], distances := fun _ _ => 1 }

def c6_eng : Engine :=
  { a := DEFAULT_ALPHA, b := DEFAULT_BETA, c := DEFAULT_GAMMA,
    controllers := [mk_ctrl "c1" 100 4096 1000, mk_ctrl "c2" 100 4096 1000],
    switches := [mk_sw "s1" 1 "c1" (1/125)],
    dpid_map := [(1, "s1")], distances := fun _ _ => 1 }

def c6w_eng : Engine :=
  { a := DEFAULT_ALPHA, b := DEFAULT_BETA, c := DEFAULT_GAMMA,
    controllers := [{ mk_ctrl "c1" 100 4096 1000 with load_percentage := 30 },
                    { mk_ctrl "c2" 100 4096 1000 with load_percentage := 30 }],
    switches := [], dpid_map := [], distances := fun _ _ => 1 }

def c1_eng : Engine :=
  { a := DEFAULT_ALPHA, b := DEFAULT_BETA, c := DEFAULT_GAMMA,
    controllers := [mk_ctrl "c1" 100 4096 1000, mk_ctrl "c2" 100 4096 1000],
    switches := [mk_sw "s1" 1 "c1" 30, mk_sw "s2" 2 "c1" 30, mk_sw "s3" 3 "c1" 30,
                 mk_sw "s4" 4 "c2" 0],
    dpid_map := [(1, "s1"), (2, "s2"), (3, "s3"), (4, "s4")],
    distances := fun _ _ => 1/2 }

def c5_eng : Engine :=
  { a := DEFAULT_ALPHA, b := DEFAULT_BETA, c := DEFAULT_GAMMA,
    controllers := [mk_ctrl "c1" 1200 4096 250, mk_ctrl "c2" 10000 100000 10000],
    switches := [mk_sw "s2" 2 "c1" 400, mk_sw "s10" 10 "c1" 400, mk_sw "st" 3 "c2" 0],
    dpid_map := [(2, "s2"), (10, "s10"), (3, "st")],
    distances := fun _ _ => 1/2 }

def c5_swapped_eng : Engine :=
  { a := DEFAULT_ALPHA, b := DEFAULT_BETA, c := DEFAULT_GAMMA,
    controllers := [mk_ctrl "c1" 1200 4096 250, mk_ctrl "c2" 10000 100000 10000],
    switches := [mk_sw "s10" 10 "c1" 400, mk_sw "s2" 2 "c1" 400, mk_sw "st" 3 "c2" 0],
    dpid_map := [(2, "s2"), (10, "s10"), (3, "st")],
    distances := fun _ _ => 1/2 }

def c8_eng : Engine :=
  { a := DEFAULT_ALPHA, b := DEFAULT_BETA, c := DEFAULT_GAMMA,
    controllers := [mk_ctrl "c1" 100 4096 1000, mk_ctrl "c2" 100 4096 1000],
    switches := [mk_sw "s4" 4 "c1" 10, mk_sw "s5" 5 "c2" 20],
    dpid_map := [(4, "s4"), (5, "s5")],
    distances := fun _ _ => 1/2 }

/-- Everything `_find_best_migration`'s scan records about a stored best
candidate: it is one of the scanned pairs, its efficiency is finite and
stored, its diagnostic payload is the one built at selection time, and it
passed the target-overload safety filter. -/
def fbm_good (E : Engine) (source : Controller) (cands : List (Switch × Controller))
    (acc : Option (Switch × Controller × ℚ × MigInfo) × Option ℚ) : Prop :=
  ∀ sw tgt e i, acc.1 = some (sw, tgt, e, i) →
    (sw, tgt) ∈ cands ∧ migration_efficiency E sw source tgt = some e ∧
    i = mk_info E source sw tgt e ∧
    tgt.load_percentage + switch_resource_on_target E sw tgt * 100 < THRESHOLDS.getD 2 0

/-- What the global selection of `run_load_balancing` records about a
chosen quadruple: the source is an active HIGH/OVERLOAD controller and the
quadruple is an answer of `_find_best_migration` for that source. -/
def rlb_good (E : Engine) (S : List Controller)
    (acc : Option (Switch × Controller × Controller × MigInfo) × Option ℚ) : Prop :=
  ∀ sw src tgt i, acc.1 = some (sw, src, tgt, i) →
    src ∈ S ∧ ∃ e, find_best_migration E src = some (sw, tgt, e, i)

def c3_eng : Engine :=
  { a := DEFAULT_ALPHA, b := DEFAULT_BETA, c := DEFAULT_GAMMA,
    controllers := [mk_ctrl "c1" 100 4096 1000, mk_ctrl "c2" 100 4096 1000],
    switches := [mk_sw "sk" 1 "c1" 970, mk_sw "sm" 2 "c1" 30, mk_sw "st" 3 "c2" 20],
    dpid_map := [(1, "sk"), (2, "sm"), (3, "st")],
    distances := fun _ _ => 1/2 }

/-- The record committed by one cycle on the C3 witness scenario. -/
def c3_rec : MigrationRecord := (run_load_balancing c3_eng true).2.getD zero_rec

def c4_eng : Engine :=
  { a := DEFAULT_ALPHA, b := DEFAULT_BETA, c := DEFAULT_GAMMA,
    controllers := [mk_ctrl "c1" 100 4096 1000, mk_ctrl "c2" 100 4096 1000],
    switches := [mk_sw "sa" 1 "c1" 970, mk_sw "sb" 2 "c1" 30, mk_sw "sc" 3 "c2" 20],
    dpid_map := [(1, "sa"), (2, "sb"), (3, "sc")],
    distances := fun _ _ => 1/2 }

/-- The record committed by one cycle on the C4 witness scenario. -/
def c4_rec : MigrationRecord := (run_load_balancing c4_eng true).2.getD zero_rec

/-- C7: if the actuator invocation inside `_execute_migration` fails or
times out, then no state changes are committed, no record is appended to
`migration_history`, and the call returns `None`; consequently a
load-balancing cycle whose actuation fails commits no migration record. -/
theorem c7_actuator_failure_no_commit (E E2 : Engine) (sw : Switch)
    (src tgt : Controller) (data : MigInfo) :
    execute_migration E sw src tgt data false = (E, none) ∧
    (run_load_balancing E2 false).2 = none := by
  have hexec : ∀ (E0 : Engine) (sw0 : Switch) (src0 tgt0 : Controller) (d0 : MigInfo),
      execute_migration E0 sw0 src0 tgt0 d0 false = (E0, none) := by
    intro E0 sw0 src0 tgt0 d0
    rfl
  refine ⟨hexec E sw src tgt data, ?_⟩
  show (match select_best (recompute_all E2) with
    | none => (recompute_all E2, none)
    | some (sw, src, tgt, extra) =>
        execute_migration (recompute_all E2) sw src tgt extra false).2 = none
  cases h : select_best (recompute_all E2) with
  | none => rfl
  | some p =>
    obtain ⟨sw', src', tgt', ex'⟩ := p
    simp [hexec]

/-- C9: totality of the per-switch resource computations.  For EVERY
state, both Eq 5 and Eq 7 are exactly the weighted sum of the three
guarded per-resource ratios of source lines 413-415 / 428-430, and each
individual ratio is defined as 0 whenever its own capacity is not
strictly positive — also in mixed states where only one capacity is
degenerate — so the division-by-zero branch is unreachable for every
input state. -/
theorem c9_per_resource_guard (E : Engine) (s : Switch) (ctrl : Controller) :
    (switch_resource_usage E s ctrl =
       E.a * res_ratio s.load_cpu ctrl.capacity_cpu +
       E.b * res_ratio s.load_mem ctrl.capacity_mem +
       E.c * res_ratio s.load_bw ctrl.capacity_bw) ∧
    (switch_resource_on_target E s ctrl =
       E.a * res_ratio s.load_cpu ctrl.capacity_cpu +
       E.b * res_ratio s.load_mem ctrl.capacity_mem +
       E.c * res_ratio s.load_bw ctrl.capacity_bw) ∧
    (∀ load cap : ℚ, cap ≤ 0 → res_ratio load cap = 0) := by
  refine ⟨rfl, rfl, ?_⟩
  intro load cap hcap
  simp only [res_ratio, if_neg (not_lt.mpr hcap)]

/-- Witness for C9 at a mixed-capacity controller: zero CPU capacity
among strictly positive memory and bandwidth capacities, the state where
a division-by-zero hazard would live. -/
theorem c9_per_resource_guard_witness :
    c9_ctrl.capacity_cpu ≤ 0 ∧ 0 < c9_ctrl.capacity_mem ∧ 0 < c9_ctrl.capacity_bw ∧
    res_ratio c9_sw.load_cpu c9_ctrl.capacity_cpu = 0 ∧
    switch_resource_usage c9_eng c9_sw c9_ctrl =
      c9_eng.a * res_ratio c9_sw.load_cpu c9_ctrl.capacity_cpu +
      c9_eng.b * res_ratio c9_sw.load_mem c9_ctrl.capacity_mem +
      c9_eng.c * res_ratio c9_sw.load_bw c9_ctrl.capacity_bw ∧
    switch_resource_on_target c9_eng c9_sw c9_ctrl =
      c9_eng.a * res_ratio c9_sw.load_cpu c9_ctrl.capacity_cpu +
      c9_eng.b * res_ratio c9_sw.load_mem c9_ctrl.capacity_mem +
      c9_eng.c * res_ratio c9_sw.load_bw c9_ctrl.capacity_bw := by
  refine ⟨by norm_num [c9_ctrl, mk_ctrl], by norm_num [c9_ctrl, mk_ctrl],
    by norm_num [c9_ctrl, mk_ctrl], ?_, ?_, ?_⟩
  · exact (c9_per_resource_guard c9_eng c9_sw c9_ctrl).2.2
      c9_sw.load_cpu c9_ctrl.capacity_cpu (by norm_num [c9_ctrl, mk_ctrl])
  · exact (c9_per_resource_guard c9_eng c9_sw c9_ctrl).1
  · exact (c9_per_resource_guard c9_eng c9_sw c9_ctrl).2.1

/-- Counterexample to C2: the per-resource ratios of Eq 5 / Eq 7 are NOT
clamped to `[0,1]`; at a controller with strictly positive capacities and a
switch with nonnegative loads (packet-in rate 700, hence CPU load 1050
against capacity 100) the usage exceeds 1. -/
theorem c2_counterexample :
    0 < c2_ctrl.capacity_cpu ∧ 0 < c2_ctrl.capacity_mem ∧ 0 < c2_ctrl.capacity_bw ∧
    0 ≤ c2_sw.load_cpu ∧ 0 ≤ c2_sw.load_mem ∧ 0 ≤ c2_sw.load_bw ∧
    1 < switch_resource_usage c2_eng c2_sw c2_ctrl ∧
    1 < switch_resource_on_target c2_eng c2_sw c2_ctrl := by
  norm_num [c2_ctrl, c2_sw, c2_eng, mk_ctrl, mk_sw, switch_resource_usage,
    switch_resource_on_target, DEFAULT_ALPHA, DEFAULT_BETA, DEFAULT_GAMMA,
    TRAFFIC_TO_CPU_FACTOR, TRAFFIC_TO_MEM_FACTOR, TRAFFIC_TO_BW_FACTOR]

/-- A guarded capacity ratio is in `[0,1]` when the load is nonnegative and
bounded by the capacity. -/
lemma guarded_ratio_bounds (l cap : ℚ) (h0 : 0 ≤ l) (hle : l ≤ cap) :
    0 ≤ (if cap > 0 then l / cap else 0) ∧ (if cap > 0 then l / cap else 0) ≤ 1 := by
  split_ifs with h
  · exact ⟨div_nonneg h0 h.le, (div_le_one h).mpr hle⟩
  · norm_num

/-- C2 as amended: the ratios are unclamped, so `U(s,c)` is only
guaranteed nonnegative in general; `U(s,c) ∈ [0,1]` (for both the Eq 5 and
the Eq 7 form) holds when the weight coefficients are nonnegative with sum
at most 1 and each per-switch load is nonnegative and does not exceed the
corresponding capacity. -/
theorem c2_amended_usage_bounds (E : Engine) (s : Switch) (ctrl : Controller)
    (ha : 0 ≤ E.a) (hb : 0 ≤ E.b) (hc : 0 ≤ E.c) (habc : E.a + E.b + E.c ≤ 1)
    (h1 : 0 ≤ s.load_cpu) (h2 : 0 ≤ s.load_mem) (h3 : 0 ≤ s.load_bw)
    (h4 : s.load_cpu ≤ ctrl.capacity_cpu) (h5 : s.load_mem ≤ ctrl.capacity_mem)
    (h6 : s.load_bw ≤ ctrl.capacity_bw) :
    (0 ≤ switch_resource_usage E s ctrl ∧ switch_resource_usage E s ctrl ≤ 1) ∧
    (0 ≤ switch_resource_on_target E s ctrl ∧
     switch_resource_on_target E s ctrl ≤ 1) := by
  obtain ⟨q1, q1'⟩ := guarded_ratio_bounds s.load_cpu ctrl.capacity_cpu h1 h4
  obtain ⟨q2, q2'⟩ := guarded_ratio_bounds s.load_mem ctrl.capacity_mem h2 h5
  obtain ⟨q3, q3'⟩ := guarded_ratio_bounds s.load_bw ctrl.capacity_bw h3 h6
  have hU : ∀ x y z : ℚ, 0 ≤ x → x ≤ 1 → 0 ≤ y → y ≤ 1 → 0 ≤ z → z ≤ 1 →
      0 ≤ E.a * x + E.b * y + E.c * z ∧ E.a * x + E.b * y + E.c * z ≤ 1 := by
    intro x y z hx hx1 hy hy1 hz hz1
    refine ⟨add_nonneg (add_nonneg (mul_nonneg ha hx) (mul_nonneg hb hy))
      (mul_nonneg hc hz), ?_⟩
    have e1 : E.a * x ≤ E.a := mul_le_of_le_one_right ha hx1
    have e2 : E.b * y ≤ E.b := mul_le_of_le_one_right hb hy1
    have e3 : E.c * z ≤ E.c := mul_le_of_le_one_right hc hz1
    linarith
  constructor
  · simpa only [switch_resource_usage] using hU _ _ _ q1 q1' q2 q2' q3 q3'
  · simpa only [switch_resource_on_target] using hU _ _ _ q1 q1' q2 q2' q3 q3'

/-- Witness for the amended C2 at a concrete in-capacity switch. -/
theorem c2_amended_usage_bounds_witness :
    (0 ≤ c2_eng.a ∧ 0 ≤ c2_eng.b ∧ 0 ≤ c2_eng.c ∧ c2_eng.a + c2_eng.b + c2_eng.c ≤ 1 ∧
     0 ≤ c2w_sw.load_cpu ∧ c2w_sw.load_cpu ≤ c2_ctrl.capacity_cpu) ∧
    (0 ≤ switch_resource_usage c2_eng c2w_sw c2_ctrl ∧
     switch_resource_usage c2_eng c2w_sw c2_ctrl ≤ 1) ∧
    (0 ≤ switch_resource_on_target c2_eng c2w_sw c2_ctrl ∧
     switch_resource_on_target c2_eng c2w_sw c2_ctrl ≤ 1) := by
  have h := c2_amended_usage_bounds c2_eng c2w_sw c2_ctrl
    (by norm_num [c2_eng, DEFAULT_ALPHA]) (by norm_num [c2_eng, DEFAULT_BETA])
    (by norm_num [c2_eng, DEFAULT_GAMMA])
    (by norm_num [c2_eng, DEFAULT_ALPHA, DEFAULT_BETA, DEFAULT_GAMMA])
    (by norm_num [c2w_sw, mk_sw, TRAFFIC_TO_CPU_FACTOR])
    (by norm_num [c2w_sw, mk_sw, TRAFFIC_TO_MEM_FACTOR])
    (by norm_num [c2w_sw, mk_sw, TRAFFIC_TO_BW_FACTOR])
    (by norm_num [c2w_sw, mk_sw, c2_ctrl, mk_ctrl, TRAFFIC_TO_CPU_FACTOR])
    (by norm_num [c2w_sw, mk_sw, c2_ctrl, mk_ctrl, TRAFFIC_TO_MEM_FACTOR])
    (by norm_num [c2w_sw, mk_sw, c2_ctrl, mk_ctrl, TRAFFIC_TO_BW_FACTOR])
  refine ⟨⟨?_, ?_, ?_, ?_, ?_, ?_⟩, h.1, h.2⟩
  · norm_num [c2_eng, DEFAULT_ALPHA]
  · norm_num [c2_eng, DEFAULT_BETA]
  · norm_num [c2_eng, DEFAULT_GAMMA]
  · norm_num [c2_eng, DEFAULT_ALPHA, DEFAULT_BETA, DEFAULT_GAMMA]
  · norm_num [c2w_sw, mk_sw, TRAFFIC_TO_CPU_FACTOR]
  · norm_num [c2w_sw, mk_sw, c2_ctrl, mk_ctrl, TRAFFIC_TO_CPU_FACTOR]

/-- The pairwise imbalance is nonnegative, with no assumption on loads. -/
lemma dc_nonneg (c1 c2 : Controller) : 0 ≤ pairwise_imbalance c1 c2 := by
  simp only [pairwise_imbalance]
  split_ifs with h
  · exact le_refl 0
  · push_neg at h
    exact div_nonneg (abs_nonneg _) (by linarith)

/-- The pairwise imbalance is at most 1 for nonnegative loads. -/
lemma dc_le_one (c1 c2 : Controller) (h1 : 0 ≤ c1.load_percentage)
    (h2 : 0 ≤ c2.load_percentage) : pairwise_imbalance c1 c2 ≤ 1 := by
  simp only [pairwise_imbalance]
  split_ifs with h
  · norm_num
  · push_neg at h
    have hpos : 0 < max c1.load_percentage c2.load_percentage := by linarith
    rw [div_le_one hpos]
    have hl := le_max_left c1.load_percentage c2.load_percentage
    have hr := le_max_right c1.load_percentage c2.load_percentage
    rw [abs_le]
    constructor <;> linarith

/-- Equal loads give zero pairwise imbalance. -/
lemma dc_eq_zero_of_eq (c1 c2 : Controller)
    (h : c1.load_percentage = c2.load_percentage) : pairwise_imbalance c1 c2 = 0 := by
  simp only [pairwise_imbalance]
  split_ifs with hmax
  · rfl
  · rw [h, sub_self, abs_zero, zero_div]

/-- The pairwise imbalance is symmetric. -/
lemma dc_comm (c1 c2 : Controller) :
    pairwise_imbalance c1 c2 = pairwise_imbalance c2 c1 := by
  simp only [pairwise_imbalance]
  rw [max_comm c2.load_percentage, abs_sub_comm c2.load_percentage]

/-- Zero pairwise imbalance means equal loads or both loads in the dead
zone below 0.01. -/
lemma dc_eq_zero_cases (c1 c2 : Controller) (h : pairwise_imbalance c1 c2 = 0) :
    c1.load_percentage = c2.load_percentage ∨
    max c1.load_percentage c2.load_percentage < 1/100 := by
  simp only [pairwise_imbalance] at h
  split_ifs at h with hmax
  · exact Or.inr hmax
  · push_neg at hmax
    rcases div_eq_zero_iff.mp h with h0 | h0
    · exact Or.inl (sub_eq_zero.mp (abs_eq_zero.mp h0))
    · rw [h0] at hmax
      norm_num at hmax

/-- Both components of a pair drawn from `all_pairs l` belong to `l`. -/
lemma mem_all_pairs {l : List Controller} {p : Controller × Controller}
    (h : p ∈ all_pairs l) : p.1 ∈ l ∧ p.2 ∈ l := by
  induction l with
  | nil => simp [all_pairs] at h
  | cons x xs ih =>
    simp only [all_pairs, List.mem_append, List.mem_map] at h
    rcases h with ⟨y, hy, rfl⟩ | h
    · exact ⟨List.mem_cons_self x xs, List.mem_cons_of_mem x hy⟩
    · exact ⟨List.mem_cons_of_mem x (ih h).1, List.mem_cons_of_mem x (ih h).2⟩

/-- Two members of a list are equal or appear, in one order or the other,
in `all_pairs`. -/
lemma all_pairs_complete : ∀ {l : List Controller} {x y : Controller},
    x ∈ l → y ∈ l → x = y ∨ (x, y) ∈ all_pairs l ∨ (y, x) ∈ all_pairs l := by
  intro l
  induction l with
  | nil => intro x y hx; simp at hx
  | cons z zs ih =>
    intro x y hx hy
    rcases List.mem_cons.mp hx with rfl | hx'
    · rcases List.mem_cons.mp hy with rfl | hy'
      · exact Or.inl rfl
      · refine Or.inr (Or.inl ?_)
        simp only [all_pairs, List.mem_append, List.mem_map]
        exact Or.inl ⟨y, hy', rfl⟩
    · rcases List.mem_cons.mp hy with rfl | hy'
      · refine Or.inr (Or.inr ?_)
        simp only [all_pairs, List.mem_append, List.mem_map]
        exact Or.inl ⟨x, hx', rfl⟩
      · rcases ih hx' hy' with h | h | h
        · exact Or.inl h
        · refine Or.inr (Or.inl ?_)
          simp only [all_pairs, List.mem_append]
          exact Or.inr h
        · refine Or.inr (Or.inr ?_)
          simp only [all_pairs, List.mem_append]
          exact Or.inr h

/-- A nonempty `all_pairs` needs at least two elements. -/
lemma all_pairs_length {l : List Controller} {p : Controller × Controller}
    (h : p ∈ all_pairs l) : 2 ≤ l.length := by
  induction l with
  | nil => simp [all_pairs] at h
  | cons x xs ih =>
    simp only [all_pairs, List.mem_append, List.mem_map] at h
    rcases h with ⟨y, hy, rfl⟩ | h
    · rcases xs with _ | ⟨z, zs⟩
      · simp at hy
      · simp only [List.length_cons, List.length_cons]
        omega
    · have := ih h
      simp only [List.length_cons]
      omega

/-- The initial accumulator is a lower bound of a running-max fold. -/
lemma le_foldl_max_init (g : Controller × Controller → ℚ) :
    ∀ (l : List (Controller × Controller)) (init : ℚ),
      init ≤ l.foldl (fun m p => max m (g p)) init := by
  intro l
  induction l with
  | nil => intro init; exact le_refl init
  | cons x xs ih =>
    intro init
    exact le_trans (le_max_left init (g x)) (ih (max init (g x)))

/-- Every scanned value is a lower bound of a running-max fold. -/
lemma le_foldl_max_mem (g : Controller × Controller → ℚ) :
    ∀ (l : List (Controller × Controller)) (init : ℚ) (p : Controller × Controller),
      p ∈ l → g p ≤ l.foldl (fun m p => max m (g p)) init := by
  intro l
  induction l with
  | nil => intro init p hp; simp at hp
  | cons x xs ih =>
    intro init p hp
    rcases List.mem_cons.mp hp with rfl | hp'
    · exact le_trans (le_max_right init (g p)) (le_foldl_max_init g xs _)
    · exact ih _ p hp'

/-- A running-max fold stays below any common upper bound. -/
lemma foldl_max_le (g : Controller × Controller → ℚ) :
    ∀ (l : List (Controller × Controller)) (init b : ℚ),
      init ≤ b → (∀ p ∈ l, g p ≤ b) →
      l.foldl (fun m p => max m (g p)) init ≤ b := by
  intro l
  induction l with
  | nil => intro init b hi _; exact hi
  | cons x xs ih =>
    intro init b hi hall
    exact ih _ b (max_le hi (hall x (List.mem_cons_self x xs)))
      (fun p hp => hall p (List.mem_cons_of_mem x hp))

/-- A running-max fold of zeros from zero is zero. -/
lemma foldl_max_eq_zero (g : Controller × Controller → ℚ) :
    ∀ (l : List (Controller × Controller)),
      (∀ p ∈ l, g p = 0) → l.foldl (fun m p => max m (g p)) 0 = 0 := by
  intro l
  induction l with
  | nil => intro _; rfl
  | cons x xs ih =>
    intro hall
    have hx : g x = 0 := hall x (List.mem_cons_self x xs)
    have : max 0 (g x) = 0 := by rw [hx]; exact max_self 0
    simpa [this] using ih (fun p hp => hall p (List.mem_cons_of_mem x hp))

/-- C10: with nonnegative recorded loads, every pairwise imbalance DC(a,b)
lies in `[0,1]` and hence so does the global imbalance. -/
theorem c10_imbalance_bounds (E : Engine)
    (h : ∀ c ∈ E.controllers, 0 ≤ c.load_percentage) :
    (∀ c1 ∈ E.controllers, ∀ c2 ∈ E.controllers,
        0 ≤ pairwise_imbalance c1 c2 ∧ pairwise_imbalance c1 c2 ≤ 1) ∧
    0 ≤ global_imbalance E ∧ global_imbalance E ≤ 1 := by
  refine ⟨fun c1 h1 c2 h2 => ⟨dc_nonneg c1 c2, dc_le_one c1 c2 (h c1 h1) (h c2 h2)⟩, ?_, ?_⟩
  · simp only [global_imbalance]
    split_ifs with hlen
    · exact le_refl 0
    · exact le_foldl_max_init _ _ 0
  · simp only [global_imbalance]
    split_ifs with hlen
    · norm_num
    · refine foldl_max_le _ _ 0 1 (by norm_num) ?_
      intro p hp
      obtain ⟨hp1, hp2⟩ := mem_all_pairs hp
      exact dc_le_one p.1 p.2 (h p.1 (List.mem_of_mem_filter hp1))
        (h p.2 (List.mem_of_mem_filter hp2))

/-- Witness for C10 at a concrete two-controller state. -/
theorem c10_imbalance_bounds_witness :
    (∀ c ∈ c10_eng.controllers, 0 ≤ c.load_percentage) ∧
    (0 ≤ global_imbalance c10_eng ∧ global_imbalance c10_eng ≤ 1) := by
  have h : ∀ c ∈ c10_eng.controllers, 0 ≤ c.load_percentage := by
    intro c hc
    simp only [c10_eng, mk_ctrl, List.mem_cons, List.not_mem_nil, or_false] at hc
    rcases hc with rfl | rfl <;> norm_num
  exact ⟨h, (c10_imbalance_bounds c10_eng h).2⟩

/-- C6 as amended: the global imbalance is 0 whenever fewer than two
controllers are active, and whenever all active controllers have equal
loads; conversely a zero global imbalance forces every active pair either
to have equal loads or to lie jointly below the 0.01 dead zone of Eq 8 —
but not necessarily to be equal, so the claimed `iff` fails in the dead
zone. -/
theorem c6_amended_global_zero (E : Engine) :
    ((E.controllers.filter (fun c => c.active)).length < 2 → global_imbalance E = 0) ∧
    ((∀ c1 ∈ E.controllers.filter (fun c => c.active),
      ∀ c2 ∈ E.controllers.filter (fun c => c.active),
        c1.load_percentage = c2.load_percentage) → global_imbalance E = 0) ∧
    (global_imbalance E = 0 →
      ∀ c1 ∈ E.controllers.filter (fun c => c.active),
      ∀ c2 ∈ E.controllers.filter (fun c => c.active),
        c1.load_percentage = c2.load_percentage ∨
        max c1.load_percentage c2.load_percentage < 1/100) := by
  refine ⟨?_, ?_, ?_⟩
  · intro hlen
    simp only [global_imbalance]
    rw [if_pos hlen]
  · intro hall
    simp only [global_imbalance]
    split_ifs with hlen
    · rfl
    · refine foldl_max_eq_zero _ _ ?_
      intro p hp
      obtain ⟨hp1, hp2⟩ := mem_all_pairs hp
      exact dc_eq_zero_of_eq p.1 p.2 (hall p.1 hp1 p.2 hp2)
  · intro hg c1 h1 c2 h2
    rcases all_pairs_complete h1 h2 with heq | hmem | hmem
    · exact Or.inl (by rw [heq])
    · have hlen2 := all_pairs_length hmem
      simp only [global_imbalance] at hg
      rw [if_neg (not_lt.mpr hlen2)] at hg
      have hle := le_foldl_max_mem (fun p => pairwise_imbalance p.1 p.2) _ 0 _ hmem
      rw [hg] at hle
      have h0 : pairwise_imbalance c1 c2 = 0 :=
        le_antisymm hle (dc_nonneg c1 c2)
      exact dc_eq_zero_cases c1 c2 h0
    · have hlen2 := all_pairs_length hmem
      simp only [global_imbalance] at hg
      rw [if_neg (not_lt.mpr hlen2)] at hg
      have hle := le_foldl_max_mem (fun p => pairwise_imbalance p.1 p.2) _ 0 _ hmem
      rw [hg] at hle
      have h0 : pairwise_imbalance c2 c1 = 0 :=
        le_antisymm hle (dc_nonneg c2 c1)
      rcases dc_eq_zero_cases c2 c1 h0 with h | h
      · exact Or.inl h.symm
      · exact Or.inr (by rw [max_comm]; exact h)

/-- Counterexample to C6: after recomputation, two active controllers have
different loads (about 0.0049 versus 0), yet the global imbalance is 0
because of the 0.01 dead zone in Eq 8 — the claimed `iff` is false. -/
theorem c6_counterexample :
    global_imbalance (recompute_all c6_eng) = 0 ∧
    ((recompute_all c6_eng).controllers.filter (fun c => c.active)).length = 2 ∧
    ((recompute_all c6_eng).controllers.map Controller.load_percentage).getD 0 0 ≠
      ((recompute_all c6_eng).controllers.map Controller.load_percentage).getD 1 0 := by
  iterate 3
    try simp [recompute_all, compute_controller_load, dom_switches, c6_eng, mk_ctrl,
      mk_sw, DEFAULT_ALPHA, DEFAULT_BETA, DEFAULT_GAMMA, TRAFFIC_TO_CPU_FACTOR,
      TRAFFIC_TO_MEM_FACTOR, TRAFFIC_TO_BW_FACTOR, List.filter_cons,
      global_imbalance, all_pairs, pairwise_imbalance, level_of_load, THRESHOLDS]
    try norm_num [min_def, max_def]

/-- Witness for the amended C6: equal active loads give zero global
imbalance, at a concrete two-controller state. -/
theorem c6_amended_global_zero_witness : global_imbalance c6w_eng = 0 := by
  refine (c6_amended_global_zero c6w_eng).2.1 ?_
  intro c1 h1 c2 h2
  simp only [c6w_eng, mk_ctrl, List.filter_cons, List.filter_nil] at h1 h2
  norm_num at h1 h2
  rcases h1 with rfl | rfl <;> rcases h2 with rfl | rfl <;> rfl

/-- Counterexample to C1: in the claimed scenario (two `(100,4096,1000)`
controllers, three rate-30 switches on `c1`, one rate-0 switch on `c2`) the
computed load of `c1` is below 42 — not about 54, because the CPU ratio
135/100 is clamped to 1 by Eq 4 — and the load-balancing cycle migrates
nothing, because `c1` is only NORMAL. -/
theorem c1_counterexample :
    (run_load_balancing c1_eng true).2 = none ∧
    ((recompute_all c1_eng).controllers.map Controller.load_percentage).getD 0 0 < 42 := by
  iterate 3
    try simp [run_load_balancing, recompute_all, compute_controller_load, dom_switches,
      c1_eng, mk_ctrl, mk_sw, DEFAULT_ALPHA, DEFAULT_BETA, DEFAULT_GAMMA,
      TRAFFIC_TO_CPU_FACTOR, TRAFFIC_TO_MEM_FACTOR, TRAFFIC_TO_BW_FACTOR,
      List.filter_cons, select_best, rlb_step, rlb_sources, find_best_migration, fbm_targets,
      fbm_step, eff_lt, migration_efficiency, dc_pair, migration_cost, switch_resource_usage,
      switch_resource_on_target, pairwise_imbalance, execute_migration, reassign, mk_info,
      level_of_load, THRESHOLDS]
    try norm_num [min_def, max_def, abs_eq_max_neg]

/-- C1 as amended: in the claimed scenario the engine computes
`L(c1) = 104803/2560` (about 40.94, the CPU ratio clamped at 1) at level
NORMAL and `L(c2) = 0` at level IDLE, and one invocation of the
load-balancing cycle performs no migration, since no controller is
HIGH or OVERLOAD. -/
theorem c1_amended_single_overload :
    ((recompute_all c1_eng).controllers.map Controller.load_percentage) = [104803/2560, 0] ∧
    ((recompute_all c1_eng).controllers.map Controller.level) =
      [ControllerLevel.NORMAL, ControllerLevel.IDLE] ∧
    (run_load_balancing c1_eng true).2 = none := by
  iterate 3
    try simp [run_load_balancing, recompute_all, compute_controller_load, dom_switches,
      c1_eng, mk_ctrl, mk_sw, DEFAULT_ALPHA, DEFAULT_BETA, DEFAULT_GAMMA,
      TRAFFIC_TO_CPU_FACTOR, TRAFFIC_TO_MEM_FACTOR, TRAFFIC_TO_BW_FACTOR,
      List.filter_cons, select_best, rlb_step, rlb_sources, find_best_migration, fbm_targets,
      fbm_step, eff_lt, migration_efficiency, dc_pair, migration_cost, switch_resource_usage,
      switch_resource_on_target, pairwise_imbalance, execute_migration, reassign, mk_info,
      level_of_load, THRESHOLDS]
    try norm_num [min_def, max_def, abs_eq_max_neg]

/-- Counterexample to C5: with two identical candidate switches "s2" and
"s10" on one HIGH source and a single IDLE target, the planner commits
"s2" — the switch earlier in registry (insertion) order — although "s10"
is the lexicographically smaller id, contradicting the claimed
lexicographic tie-break. -/
theorem c5_counterexample :
    ((run_load_balancing c5_eng true).2.getD zero_rec).switch_id = "s2" ∧
    ("s10" : String) < "s2" := by
  constructor
  · iterate 3
      try simp [run_load_balancing, recompute_all, compute_controller_load, dom_switches,
        c5_eng, mk_ctrl, mk_sw, DEFAULT_ALPHA, DEFAULT_BETA, DEFAULT_GAMMA,
        TRAFFIC_TO_CPU_FACTOR, TRAFFIC_TO_MEM_FACTOR, TRAFFIC_TO_BW_FACTOR,
        List.filter_cons, select_best, rlb_step, rlb_sources, find_best_migration, fbm_targets,
        fbm_step, eff_lt, migration_efficiency, dc_pair, migration_cost, switch_resource_usage,
        switch_resource_on_target, pairwise_imbalance, execute_migration, reassign, mk_info,
        level_of_load, THRESHOLDS, zero_rec]
      try norm_num [min_def, max_def, abs_eq_max_neg]
  · rw [String.lt_iff_toList_lt]
    decide

set_option maxHeartbeats 1000000 in
/-- C5 as amended: ties in minimal finite migration efficiency are broken
by iteration order — the candidate whose switch appears first in the switch
registry wins; swapping the registry order of the two identical switches
swaps the selected switch ("s2" first selects "s2", "s10" first selects
"s10"), independently of lexicographic id order. -/
theorem c5_amended_tie_break_registry_order :
    ((run_load_balancing c5_eng true).2.getD zero_rec).switch_id = "s2" ∧
    ((run_load_balancing c5_swapped_eng true).2.getD zero_rec).switch_id = "s10" := by
  constructor
  · iterate 3
      try simp [run_load_balancing, recompute_all, compute_controller_load, dom_switches,
        c5_eng, mk_ctrl, mk_sw, DEFAULT_ALPHA, DEFAULT_BETA, DEFAULT_GAMMA,
        TRAFFIC_TO_CPU_FACTOR, TRAFFIC_TO_MEM_FACTOR, TRAFFIC_TO_BW_FACTOR,
        List.filter_cons, select_best, rlb_step, rlb_sources, find_best_migration, fbm_targets,
        fbm_step, eff_lt, migration_efficiency, dc_pair, migration_cost, switch_resource_usage,
        switch_resource_on_target, pairwise_imbalance, execute_migration, reassign, mk_info,
        level_of_load, THRESHOLDS, zero_rec]
      try norm_num [min_def, max_def, abs_eq_max_neg]
  · iterate 3
      try simp [run_load_balancing, recompute_all, compute_controller_load, dom_switches,
        c5_swapped_eng, mk_ctrl, mk_sw, DEFAULT_ALPHA, DEFAULT_BETA, DEFAULT_GAMMA,
        TRAFFIC_TO_CPU_FACTOR, TRAFFIC_TO_MEM_FACTOR, TRAFFIC_TO_BW_FACTOR,
        List.filter_cons, select_best, rlb_step, rlb_sources, find_best_migration, fbm_targets,
        fbm_step, eff_lt, migration_efficiency, dc_pair, migration_cost, switch_resource_usage,
        switch_resource_on_target, pairwise_imbalance, execute_migration, reassign, mk_info,
        level_of_load, THRESHOLDS, zero_rec]
      try norm_num [min_def, max_def, abs_eq_max_neg]

/-- A telemetry entry update never changes a switch's id or owner. -/
lemma entry_update_id_owner (cid sid : String) (cnt : ℚ) (s : Switch) :
    (entry_update cid sid cnt s).id = s.id ∧
    (entry_update cid sid cnt s).controller_id = s.controller_id := by
  unfold entry_update
  split_ifs <;> exact ⟨rfl, rfl⟩

/-- A telemetry entry update fixes every switch not owned by the
reporting controller. -/
lemma entry_update_of_not_owner (cid sid : String) (cnt : ℚ) (s : Switch)
    (h : s.controller_id ≠ cid) : entry_update cid sid cnt s = s := by
  unfold entry_update
  rw [if_neg]
  simp [h]

/-- A telemetry entry update fixes every switch with a different id. -/
lemma entry_update_of_ne_id (cid sid : String) (cnt : ℚ) (s : Switch)
    (h : s.id ≠ sid) : entry_update cid sid cnt s = s := by
  unfold entry_update
  rw [if_neg]
  simp [h]

/-- Processing one payload entry is a per-element map that preserves ids
and owners. -/
lemma apply_entry_map (E : Engine) (cid : String) (sws : List Switch) (e : Nat × ℚ) :
    ∃ f : Switch → Switch, apply_entry E cid sws e = sws.map f ∧
      ∀ s, (f s).id = s.id ∧ (f s).controller_id = s.controller_id := by
  unfold apply_entry
  cases h : dpid_lookup E.dpid_map e.1 with
  | none => exact ⟨id, (List.map_id sws).symm, fun s => ⟨rfl, rfl⟩⟩
  | some sid => exact ⟨entry_update cid sid e.2, rfl,
      fun s => entry_update_id_owner cid sid e.2 s⟩

/-- Folding a payload over the switch registry is a per-element map that
preserves ids and owners. -/
lemma foldl_apply_entry_map (E : Engine) (cid : String) :
    ∀ (payload : List (Nat × ℚ)) (sws : List Switch),
    ∃ f : Switch → Switch, payload.foldl (apply_entry E cid) sws = sws.map f ∧
      ∀ s, (f s).id = s.id ∧ (f s).controller_id = s.controller_id := by
  intro payload
  induction payload with
  | nil =>
    intro sws
    exact ⟨id, (List.map_id sws).symm, fun s => ⟨rfl, rfl⟩⟩
  | cons e rest ih =>
    intro sws
    obtain ⟨f1, hf1, hp1⟩ := apply_entry_map E cid sws e
    obtain ⟨f2, hf2, hp2⟩ := ih (apply_entry E cid sws e)
    refine ⟨f2 ∘ f1, ?_, ?_⟩
    · rw [List.foldl_cons, hf2, hf1, List.map_map]
    · intro s
      exact ⟨((hp2 (f1 s)).1).trans (hp1 s).1, ((hp2 (f1 s)).2).trans (hp1 s).2⟩

/-- A switch not owned by the reporting controller survives the whole
payload fold unchanged. -/
lemma foldl_apply_entry_fixes (E : Engine) (cid : String) :
    ∀ (payload : List (Nat × ℚ)) (sws : List Switch) (s : Switch),
      s ∈ sws → s.controller_id ≠ cid →
      s ∈ payload.foldl (apply_entry E cid) sws := by
  intro payload
  induction payload with
  | nil => intro sws s hs _; exact hs
  | cons e rest ih =>
    intro sws s hs hown
    refine ih _ s ?_ hown
    unfold apply_entry
    cases h : dpid_lookup E.dpid_map e.1 with
    | none => exact hs
    | some sid =>
      have : entry_update cid sid e.2 s = s := entry_update_of_not_owner cid sid e.2 s hown
      exact this ▸ List.mem_map_of_mem (entry_update cid sid e.2) hs

/-- An entry whose resolved switch is foreign to the reporting controller
leaves the registry untouched. -/
lemma apply_entry_eq_self (E : Engine) (cid : String) (sws : List Switch) (e : Nat × ℚ)
    (h : ∀ s ∈ sws, ∀ sid, dpid_lookup E.dpid_map e.1 = some sid →
          s.id = sid → s.controller_id ≠ cid) :
    apply_entry E cid sws e = sws := by
  unfold apply_entry
  cases hl : dpid_lookup E.dpid_map e.1 with
  | none => rfl
  | some sid =>
    have : ∀ s ∈ sws, entry_update cid sid e.2 s = s := by
      intro s hs
      by_cases hid : s.id = sid
      · exact entry_update_of_not_owner cid sid e.2 s (h s hs sid hl hid)
      · exact entry_update_of_ne_id cid sid e.2 s hid
    calc sws.map (entry_update cid sid e.2) = sws.map id := List.map_congr_left this
    _ = sws := List.map_id sws

/-- C8: a telemetry entry whose resolved switch is owned by a different
controller than the reporter is discarded: processing the payload with the
entry equals processing it without the entry (so it contributes nothing to
the reporter's recomputed aggregate load), and every switch not owned by
the reporter keeps its packet-in rate and projected loads unchanged. -/
theorem c8_stale_telemetry_discarded (E : Engine) (cid : String)
    (l1 l2 : List (Nat × ℚ)) (e : Nat × ℚ)
    (he : ∀ s ∈ E.switches, ∀ sid, dpid_lookup E.dpid_map e.1 = some sid →
          s.id = sid → s.controller_id ≠ cid) :
    update_controller_metrics E cid (l1 ++ e :: l2) =
      update_controller_metrics E cid (l1 ++ l2) ∧
    ∀ s ∈ E.switches, s.controller_id ≠ cid →
      s ∈ (update_controller_metrics E cid (l1 ++ e :: l2)).switches := by
  have hfoldkey : (l1 ++ e :: l2).foldl (apply_entry E cid) E.switches =
      (l1 ++ l2).foldl (apply_entry E cid) E.switches := by
    rw [List.foldl_append, List.foldl_append, List.foldl_cons]
    congr 1
    apply apply_entry_eq_self
    intro s hs sid hl hid
    obtain ⟨f, hf, hpres⟩ := foldl_apply_entry_map E cid l1 E.switches
    rw [hf] at hs
    obtain ⟨s0, hs0, rfl⟩ := List.mem_map.mp hs
    rw [(hpres s0).2]
    exact he s0 hs0 sid hl (((hpres s0).1).symm.trans hid)
  constructor
  · simp only [update_controller_metrics]
    split_ifs with hfind
    · rfl
    · rw [hfoldkey]
  · intro s hs hown
    simp only [update_controller_metrics]
    split_ifs with hfind
    · exact hs
    · exact foldl_apply_entry_fixes E cid _ _ s hs hown

/-- Witness for C8: switch "s5" now belongs to "c2"; a push from "c1" that
still mentions dpid 5 is processed as if the entry were absent, and "s5"
is untouched. -/
theorem c8_stale_telemetry_discarded_witness :
    (∀ s ∈ c8_eng.switches, ∀ sid, dpid_lookup c8_eng.dpid_map 5 = some sid →
        s.id = sid → s.controller_id ≠ "c1") ∧
    update_controller_metrics c8_eng "c1" [(4, 50), (5, 99)] =
      update_controller_metrics c8_eng "c1" [(4, 50)] ∧
    ∀ s ∈ c8_eng.switches, s.controller_id ≠ "c1" →
      s ∈ (update_controller_metrics c8_eng "c1" [(4, 50), (5, 99)]).switches := by
  have hres : dpid_lookup c8_eng.dpid_map 5 = some "s5" := by decide
  have hyp : ∀ s ∈ c8_eng.switches, ∀ sid, dpid_lookup c8_eng.dpid_map 5 = some sid →
      s.id = sid → s.controller_id ≠ "c1" := by
    intro s hs sid hl hid
    rw [hres] at hl
    have hsid : sid = "s5" := (Option.some.injEq _ _ ▸ hl).symm ▸ rfl
    subst hsid
    simp only [c8_eng, mk_sw, List.mem_cons, List.not_mem_nil, or_false] at hs
    rcases hs with rfl | rfl
    · simp at hid
    · simp
  have h := c8_stale_telemetry_discarded c8_eng "c1" [(4, 50)] [] (5, 99) hyp
  exact ⟨hyp, h.1, h.2⟩

/-- A failed actuation leaves the engine untouched and yields no record. -/
lemma execute_migration_not_ok (E : Engine) (sw : Switch) (src tgt : Controller)
    (data : MigInfo) : execute_migration E sw src tgt data false = (E, none) := rfl

/-- One scan step preserves the candidate invariant. -/
lemma fbm_step_good (E : Engine) (source : Controller)
    (cands : List (Switch × Controller)) (acc) (p : Switch × Controller)
    (hp : p ∈ cands) (h : fbm_good E source cands acc) :
    fbm_good E source cands (fbm_step E source acc p) := by
  intro sw tgt e i heq
  simp only [fbm_step] at heq
  split_ifs at heq with h1 h2
  · exact h sw tgt e i heq
  · cases hme : migration_efficiency E p.1 source p.2 with
    | none => rw [hme] at heq; exact h sw tgt e i heq
    | some e' =>
      rw [hme] at heq
      simp only [Option.some.injEq, Prod.mk.injEq] at heq
      obtain ⟨hsw, htgt, he, hi⟩ := heq
      refine ⟨?_, ?_, ?_, ?_⟩
      · rw [← hsw, ← htgt]
        simpa using hp
      · rw [← hsw, ← htgt, ← he]
        exact hme
      · rw [← hi, ← hsw, ← htgt, ← he]
      · rw [← hsw, ← htgt]
        exact lt_of_not_ge h1
  · exact h sw tgt e i heq

/-- The whole scan preserves the candidate invariant. -/
lemma fbm_fold_good (E : Engine) (source : Controller)
    (cands : List (Switch × Controller)) :
    ∀ (l : List (Switch × Controller)) (acc), (∀ p ∈ l, p ∈ cands) →
      fbm_good E source cands acc →
      fbm_good E source cands (l.foldl (fbm_step E source) acc) := by
  intro l
  induction l with
  | nil => intro acc _ h; exact h
  | cons p rest ih =>
    intro acc hsub h
    exact ih _ (fun q hq => hsub q (List.mem_cons_of_mem p hq))
      (fbm_step_good E source cands acc p (hsub p (List.mem_cons_self p rest)) h)

/-- Soundness of `_find_best_migration`: a returned candidate is a
domain-switch/eligible-target pair, its efficiency is finite and bound to
the stored diagnostic payload, and the predicted post-migration target load
is strictly below `T_HIGH = 75`. -/
lemma find_best_migration_sound (E : Engine) (source : Controller)
    (sw : Switch) (tgt : Controller) (e : ℚ) (i : MigInfo)
    (h : find_best_migration E source = some (sw, tgt, e, i)) :
    sw ∈ dom_switches E source.id ∧ tgt ∈ fbm_targets E source ∧
    migration_efficiency E sw source tgt = some e ∧
    i = mk_info E source sw tgt e ∧
    tgt.load_percentage + switch_resource_on_target E sw tgt * 100 <
      THRESHOLDS.getD 2 0 := by
  simp only [find_best_migration] at h
  by_cases h1 : (dom_switches E source.id).isEmpty = true
  · rw [if_pos h1] at h
    cases h
  · rw [if_neg h1] at h
    by_cases h2 : (fbm_targets E source).isEmpty = true
    · rw [if_pos h2] at h
      cases h
    · rw [if_neg h2] at h
      have hstart : fbm_good E source
          ((dom_switches E source.id).flatMap
            (fun sw => (fbm_targets E source).map (fun t => (sw, t)))) (none, none) := by
        intro _ _ _ _ h'
        cases h'
      have hres := fbm_fold_good E source _ _ (none, none) (fun p hp => hp) hstart sw tgt e i h
      obtain ⟨hc, hme, hi, hsafe⟩ := hres
      obtain ⟨a, ha, hmap⟩ := List.mem_flatMap.mp hc
      obtain ⟨t, ht, heq⟩ := List.mem_map.mp hmap
      have hA : a = sw := congrArg Prod.fst heq
      have hT : t = tgt := congrArg Prod.snd heq
      subst hA; subst hT
      exact ⟨ha, ht, hme, hi, hsafe⟩

/-- One source-scan step of the global selection preserves soundness. -/
lemma rlb_step_good (E : Engine) (S : List Controller) (acc) (src' : Controller)
    (hs : src' ∈ S) (h : rlb_good E S acc) :
    rlb_good E S (rlb_step E acc src') := by
  intro sw src tgt i heq
  simp only [rlb_step] at heq
  split at heq
  · exact h sw src tgt i heq
  · rename_i sw' tgt' e' x' hfb
    split_ifs at heq with hlt
    · simp only [Option.some.injEq, Prod.mk.injEq] at heq
      obtain ⟨h1, h2, h3, h4⟩ := heq
      constructor
      · rw [← h2]
        exact hs
      · refine ⟨e', ?_⟩
        rw [← h1, ← h2, ← h3, ← h4]
        exact hfb
    · exact h sw src tgt i heq

/-- The whole source scan preserves soundness. -/
lemma rlb_fold_good (E : Engine) (S : List Controller) :
    ∀ (l : List Controller) (acc), (∀ c ∈ l, c ∈ S) → rlb_good E S acc →
      rlb_good E S (l.foldl (rlb_step E) acc) := by
  intro l
  induction l with
  | nil => intro acc _ h; exact h
  | cons c rest ih =>
    intro acc hsub h
    exact ih _ (fun q hq => hsub q (List.mem_cons_of_mem c hq))
      (rlb_step_good E S acc c (hsub c (List.mem_cons_self c rest)) h)

/-- Soundness of the global selection: a chosen quadruple comes from an
active HIGH/OVERLOAD source and is a `_find_best_migration` answer. -/
lemma select_best_sound (E : Engine) (sw : Switch) (src tgt : Controller)
    (i : MigInfo) (h : select_best E = some (sw, src, tgt, i)) :
    src ∈ rlb_sources E ∧ ∃ e, find_best_migration E src = some (sw, tgt, e, i) := by
  have hstart : rlb_good E (rlb_sources E) (none, none) := by
    intro _ _ _ _ h'
    cases h'
  exact rlb_fold_good E (rlb_sources E) (rlb_sources E) (none, none)
    (fun c hc => hc) hstart sw src tgt i h

/-- C3: every migration committed by `run_load_balancing` was selected
with a predicted post-migration target load — the target's recomputed
`load_percentage` at decision time plus `100·U(s, target)` — strictly
below the HIGH threshold `THRESHOLDS[2] = 75`. -/
theorem c3_committed_migration_target_safe (E : Engine) (ok : Bool)
    (rec : MigrationRecord) (h : (run_load_balancing E ok).2 = some rec) :
    ∃ sw src tgt i, select_best (recompute_all E) = some (sw, src, tgt, i) ∧
      rec.switch_id = sw.id ∧ rec.source_controller = src.id ∧
      rec.target_controller = tgt.id ∧
      tgt.load_percentage +
        switch_resource_on_target (recompute_all E) sw tgt * 100 <
        THRESHOLDS.getD 2 0 := by
  simp only [run_load_balancing] at h
  split at h
  · simp at h
  · rename_i sw src tgt i hsel
    cases ok with
    | false =>
      rw [execute_migration_not_ok] at h
      simp at h
    | true =>
      obtain ⟨hsrc, e, hfb⟩ := select_best_sound (recompute_all E) sw src tgt i hsel
      obtain ⟨hdom, htgt, hme, hi, hsafe⟩ :=
        find_best_migration_sound (recompute_all E) src sw tgt e i hfb
      simp only [execute_migration, Bool.not_true, Bool.false_eq_true, if_false] at h
      have hrec := Option.some.inj h
      refine ⟨sw, src, tgt, i, hsel, ?_, ?_, ?_, hsafe⟩ <;> rw [← hrec]

/-- Witness for C3 at a concrete committing scenario (HIGH source "c1",
IDLE target "c2", switch "sm" migrated). -/
theorem c3_committed_migration_target_safe_witness :
    (run_load_balancing c3_eng true).2 = some c3_rec ∧
    (∃ sw src tgt i, select_best (recompute_all c3_eng) = some (sw, src, tgt, i) ∧
      c3_rec.switch_id = sw.id ∧ c3_rec.source_controller = src.id ∧
      c3_rec.target_controller = tgt.id ∧
      tgt.load_percentage +
        switch_resource_on_target (recompute_all c3_eng) sw tgt * 100 <
        THRESHOLDS.getD 2 0) := by
  have hrun : (run_load_balancing c3_eng true).2 = some c3_rec := by
    iterate 3
      try simp [run_load_balancing, recompute_all, compute_controller_load, dom_switches,
        c3_eng, c3_rec, zero_rec, mk_ctrl, mk_sw, DEFAULT_ALPHA, DEFAULT_BETA, DEFAULT_GAMMA,
        TRAFFIC_TO_CPU_FACTOR, TRAFFIC_TO_MEM_FACTOR, TRAFFIC_TO_BW_FACTOR,
        List.filter_cons, select_best, rlb_step, rlb_sources, find_best_migration,
        fbm_targets, fbm_step, eff_lt, migration_efficiency, dc_pair, migration_cost,
        switch_resource_usage, switch_resource_on_target, pairwise_imbalance,
        execute_migration, mk_info, level_of_load, THRESHOLDS]
      try norm_num [min_def, max_def, abs_eq_max_neg]
  exact ⟨hrun, c3_committed_migration_target_safe c3_eng true c3_rec hrun⟩

/-- Recomputation never touches identity, activity or capacities. -/
lemma compute_load_fields (E : Engine) (ctrl : Controller) :
    (compute_controller_load E ctrl).id = ctrl.id ∧
    (compute_controller_load E ctrl).active = ctrl.active ∧
    (compute_controller_load E ctrl).capacity_cpu = ctrl.capacity_cpu ∧
    (compute_controller_load E ctrl).capacity_mem = ctrl.capacity_mem ∧
    (compute_controller_load E ctrl).capacity_bw = ctrl.capacity_bw := by
  simp only [compute_controller_load]
  split <;> exact ⟨rfl, rfl, rfl, rfl, rfl⟩

/-- The recomputed load is the capped weighted raw load, in both the
empty-domain and the regular branch. -/
lemma compute_load_value (E : Engine) (ctrl : Controller) :
    (compute_controller_load E ctrl).load_percentage = min (raw_load E ctrl) 100 := by
  simp only [compute_controller_load, raw_load, dom_sum_cpu, dom_sum_mem, dom_sum_bw]
  split_ifs with h
  · have hd : dom_switches E ctrl.id = [] := List.isEmpty_iff.mp h
    rw [hd]
    norm_num
  · rfl

/-- The recomputed level is the classification of the recomputed load. -/
lemma compute_load_level (E : Engine) (ctrl : Controller) :
    (compute_controller_load E ctrl).level =
      level_of_load (compute_controller_load E ctrl).load_percentage := by
  simp only [compute_controller_load]
  split_ifs with h
  · simp [level_of_load, THRESHOLDS]
  · rfl

/-- Controllers of the recomputed engine are recomputations of original
controllers. -/
lemma recompute_mem (E : Engine) (c : Controller)
    (hc : c ∈ (recompute_all E).controllers) :
    ∃ c0 ∈ E.controllers, c = compute_controller_load E c0 := by
  simp only [recompute_all] at hc
  obtain ⟨c0, h0, h1⟩ := List.mem_map.mp hc
  exact ⟨c0, h0, h1.symm⟩

/-- The threshold constants, by value. -/
lemma thresholds_vals :
    THRESHOLDS.getD 0 0 = 25 ∧ THRESHOLDS.getD 1 0 = 50 ∧ THRESHOLDS.getD 2 0 = 75 :=
  ⟨rfl, rfl, rfl⟩

/-- HIGH and OVERLOAD levels mean a load of at least 50. -/
lemma level_high_load (lp : ℚ)
    (h : level_of_load lp = ControllerLevel.HIGH ∨
         level_of_load lp = ControllerLevel.OVERLOAD) : 50 ≤ lp := by
  unfold level_of_load at h
  rw [thresholds_vals.1, thresholds_vals.2.1, thresholds_vals.2.2] at h
  split_ifs at h with h1 h2 h3
  · rcases h with h | h <;> cases h
  · rcases h with h | h <;> cases h
  · linarith [not_lt.mp h2]
  · linarith [not_lt.mp h3]

/-- IDLE and NORMAL levels mean a load below 50. -/
lemma level_low_load (lp : ℚ)
    (h : level_of_load lp = ControllerLevel.IDLE ∨
         level_of_load lp = ControllerLevel.NORMAL) : lp < 50 := by
  unfold level_of_load at h
  rw [thresholds_vals.1, thresholds_vals.2.1, thresholds_vals.2.2] at h
  split_ifs at h with h1 h2 h3
  · linarith
  · exact h2
  · rcases h with h | h <;> cases h
  · rcases h with h | h <;> cases h

/-- Membership in the HIGH/OVERLOAD source list, unpacked. -/
lemma rlb_sources_spec (E : Engine) (c : Controller) (h : c ∈ rlb_sources E) :
    c ∈ E.controllers ∧ c.active = true ∧
    (c.level = ControllerLevel.HIGH ∨ c.level = ControllerLevel.OVERLOAD) := by
  simp only [rlb_sources, List.mem_filter, Bool.and_eq_true, Bool.or_eq_true,
    beq_iff_eq] at h
  exact ⟨h.1, h.2.1, h.2.2⟩

/-- Membership in the IDLE/NORMAL target list, unpacked. -/
lemma fbm_targets_spec (E : Engine) (src c : Controller) (h : c ∈ fbm_targets E src) :
    c ∈ E.controllers ∧ c.active = true ∧ c.id ≠ src.id ∧
    (c.level = ControllerLevel.IDLE ∨ c.level = ControllerLevel.NORMAL) := by
  simp only [fbm_targets, List.mem_filter, Bool.and_eq_true, Bool.or_eq_true,
    Bool.not_eq_eq_eq_not, Bool.not_true, beq_eq_false_iff_ne, beq_iff_eq] at h
  exact ⟨h.1, h.2.1.1, h.2.1.2, h.2.2⟩

/-- Membership in a controller's domain, unpacked. -/
lemma dom_switches_spec (E : Engine) (cid : String) (s : Switch)
    (h : s ∈ dom_switches E cid) : s ∈ E.switches ∧ s.controller_id = cid := by
  simp only [dom_switches, List.mem_filter, beq_iff_eq] at h
  exact h

/-- Domain sums are nonnegative when all switch loads are. -/
lemma dom_sum_nonneg (E : Engine) (cid : String) (f : Switch → ℚ)
    (h : ∀ s ∈ E.switches, 0 ≤ f s) :
    0 ≤ ((dom_switches E cid).map f).sum := by
  apply List.sum_nonneg
  intro x hx
  obtain ⟨s, hs, rfl⟩ := List.mem_map.mp hx
  exact h s (List.mem_of_mem_filter hs)

/-- A domain member's load is at most the domain sum of that load. -/
lemma single_le_dom_sum (E : Engine) (cid : String) (f : Switch → ℚ)
    (h : ∀ s ∈ E.switches, 0 ≤ f s) (sw : Switch) (hsw : sw ∈ dom_switches E cid) :
    f sw ≤ ((dom_switches E cid).map f).sum := by
  apply List.single_le_sum
  · intro x hx
    obtain ⟨s, hs, rfl⟩ := List.mem_map.mp hx
    exact h s (List.mem_of_mem_filter hs)
  · exact List.mem_map_of_mem f hsw

/-- Removing the migrated switch from its old domain subtracts exactly its
load from the domain sum (switch ids are unique). -/
lemma reassign_filter_src (tgtid : String) (f : Switch → ℚ) :
    ∀ (l : List Switch) (sw : Switch), sw ∈ l → (l.map Switch.id).Nodup →
      sw.controller_id ≠ tgtid →
      (((l.map (fun s => if s.id == sw.id then { s with controller_id := tgtid } else s)).filter
          (fun s => s.controller_id == sw.controller_id)).map f).sum =
      ((l.filter (fun s => s.controller_id == sw.controller_id)).map f).sum - f sw := by
  intro l
  induction l with
  | nil => intro sw h; simp at h
  | cons x xs ih =>
    intro sw hmem hnodup hown
    have hnodup' : (xs.map Switch.id).Nodup := (List.nodup_cons.mp hnodup).2
    have hxid : x.id ∉ xs.map Switch.id := (List.nodup_cons.mp hnodup).1
    by_cases hx : x.id = sw.id
    · have hsx : sw = x := by
        rcases List.mem_cons.mp hmem with h' | h'
        · exact h'
        · exact absurd (hx ▸ List.mem_map_of_mem Switch.id h') hxid
      subst hsx
      have htail : xs.map (fun s => if s.id == sw.id then { s with controller_id := tgtid } else s) = xs := by
        have : ∀ s ∈ xs, (if s.id == sw.id then { s with controller_id := tgtid } else s) = s := by
          intro s hs
          rw [if_neg]
          simp only [beq_iff_eq]
          intro heq
          exact hxid (heq ▸ List.mem_map_of_mem Switch.id hs)
        rw [List.map_congr_left this]
        simp
      simp only [List.map_cons, List.filter_cons, beq_self_eq_true, if_true, htail]
      rw [if_neg (by simp [Ne.symm hown])]
      simp only [List.map_cons, List.sum_cons]
      ring
    · have hsw' : sw ∈ xs := by
        rcases List.mem_cons.mp hmem with h' | h'
        · exact absurd (h' ▸ rfl) hx
        · exact h'
      have hhead : (if x.id == sw.id then { x with controller_id := tgtid } else x) = x := by
        rw [if_neg (by simp [hx])]
      simp only [List.map_cons, List.filter_cons, hhead]
      by_cases hp : x.controller_id = sw.controller_id
      · rw [if_pos (by simp [hp]), if_pos (by simp [hp])]
        simp only [List.map_cons, List.sum_cons]
        rw [ih sw hsw' hnodup' hown]
        ring
      · rw [if_neg (by simp [hp]), if_neg (by simp [hp])]
        exact ih sw hsw' hnodup' hown

/-- Adding the migrated switch to its new domain adds exactly its load to
the domain sum, for load projections unaffected by ownership. -/
lemma reassign_filter_tgt (tgtid : String) (f : Switch → ℚ)
    (hf : ∀ (s : Switch), f { s with controller_id := tgtid } = f s) :
    ∀ (l : List Switch) (sw : Switch), sw ∈ l → (l.map Switch.id).Nodup →
      sw.controller_id ≠ tgtid →
      (((l.map (fun s => if s.id == sw.id then { s with controller_id := tgtid } else s)).filter
          (fun s => s.controller_id == tgtid)).map f).sum =
      ((l.filter (fun s => s.controller_id == tgtid)).map f).sum + f sw := by
  intro l
  induction l with
  | nil => intro sw h; simp at h
  | cons x xs ih =>
    intro sw hmem hnodup hown
    have hnodup' : (xs.map Switch.id).Nodup := (List.nodup_cons.mp hnodup).2
    have hxid : x.id ∉ xs.map Switch.id := (List.nodup_cons.mp hnodup).1
    by_cases hx : x.id = sw.id
    · have hsx : sw = x := by
        rcases List.mem_cons.mp hmem with h' | h'
        · exact h'
        · exact absurd (hx ▸ List.mem_map_of_mem Switch.id h') hxid
      subst hsx
      have htail : xs.map (fun s => if s.id == sw.id then { s with controller_id := tgtid } else s) = xs := by
        have : ∀ s ∈ xs, (if s.id == sw.id then { s with controller_id := tgtid } else s) = s := by
          intro s hs
          rw [if_neg]
          simp only [beq_iff_eq]
          intro heq
          exact hxid (heq ▸ List.mem_map_of_mem Switch.id hs)
        rw [List.map_congr_left this]
        simp
      simp only [List.map_cons, List.filter_cons, beq_self_eq_true, if_true, htail]
      rw [if_neg (by simp [hown])]
      simp only [List.map_cons, List.sum_cons, hf]
      ring
    · have hsw' : sw ∈ xs := by
        rcases List.mem_cons.mp hmem with h' | h'
        · exact absurd (h' ▸ rfl) hx
        · exact h'
      have hhead : (if x.id == sw.id then { x with controller_id := tgtid } else x) = x := by
        rw [if_neg (by simp [hx])]
      simp only [List.map_cons, List.filter_cons, hhead]
      by_cases hp : x.controller_id = tgtid
      · rw [if_pos (by simp [hp]), if_pos (by simp [hp])]
        simp only [List.map_cons, List.sum_cons]
        rw [ih sw hsw' hnodup' hown]
        ring
      · rw [if_neg (by simp [hp]), if_neg (by simp [hp])]
        exact ih sw hsw' hnodup' hown

/-- A clamped capacity ratio shrinks when load is removed, but by at most
the removed load's own ratio. -/
lemma min_ratio_sub_ge (T l cap : ℚ) (hcap : 0 < cap) (hl : 0 ≤ l) :
    min (T/cap) 1 - l/cap ≤ min ((T - l)/cap) 1 := by
  have hld : 0 ≤ l/cap := div_nonneg hl hcap.le
  rcases le_or_lt (T/cap) 1 with h | h
  · rw [min_eq_left h]
    have h2 : (T - l)/cap ≤ 1 := by
      rw [sub_div]
      linarith
    rw [min_eq_left h2, sub_div]
  · rw [min_eq_right h.le]
    rcases le_or_lt ((T - l)/cap) 1 with h2 | h2
    · rw [min_eq_left h2, sub_div]
      have := sub_div T l cap
      nlinarith [h]
    · rw [min_eq_right h2.le]
      linarith

/-- A clamped capacity ratio grows when load is added, but by at most the
added load's own ratio. -/
lemma min_ratio_add_le (T l cap : ℚ) (hcap : 0 < cap) (hl : 0 ≤ l) :
    min ((T + l)/cap) 1 ≤ min (T/cap) 1 + l/cap := by
  have hld : 0 ≤ l/cap := div_nonneg hl hcap.le
  rcases le_or_lt (T/cap) 1 with h | h
  · rw [min_eq_left h]
    calc min ((T + l)/cap) 1 ≤ (T + l)/cap := min_le_left _ _
    _ = T/cap + l/cap := add_div T l cap
  · rw [min_eq_right h.le]
    calc min ((T + l)/cap) 1 ≤ 1 := min_le_right _ _
    _ ≤ 1 + l/cap := by linarith

/-- Clamped capacity ratios are monotone in the load. -/
lemma min_ratio_mono (T T' cap : ℚ) (hcap : 0 < cap) (h : T' ≤ T) :
    min (T'/cap) 1 ≤ min (T/cap) 1 :=
  min_le_min ((div_le_div_iff_of_pos_right hcap).mpr h) (le_refl 1)

/-- Clamped capacity ratios of nonnegative loads are nonnegative. -/
lemma min_ratio_nonneg (T cap : ℚ) (hT : 0 ≤ T) (hcap : 0 < cap) :
    0 ≤ min (T/cap) 1 :=
  le_min (div_nonneg hT hcap.le) zero_le_one

/-- Eq 5 with positive capacities, guards resolved. -/
lemma usage_unfold (E : Engine) (s : Switch) (c : Controller)
    (h1 : 0 < c.capacity_cpu) (h2 : 0 < c.capacity_mem) (h3 : 0 < c.capacity_bw) :
    switch_resource_usage E s c =
      E.a * (s.load_cpu / c.capacity_cpu) + E.b * (s.load_mem / c.capacity_mem) +
      E.c * (s.load_bw / c.capacity_bw) := by
  simp only [switch_resource_usage, if_pos h1, if_pos h2, if_pos h3]

/-- Eq 7 with positive capacities, guards resolved. -/
lemma on_target_unfold (E : Engine) (s : Switch) (c : Controller)
    (h1 : 0 < c.capacity_cpu) (h2 : 0 < c.capacity_mem) (h3 : 0 < c.capacity_bw) :
    switch_resource_on_target E s c =
      E.a * (s.load_cpu / c.capacity_cpu) + E.b * (s.load_mem / c.capacity_mem) +
      E.c * (s.load_bw / c.capacity_bw) := by
  simp only [switch_resource_on_target, if_pos h1, if_pos h2, if_pos h3]

/-- A guarded capacity ratio of a nonnegative load is nonnegative. -/
lemma guarded_ratio_nonneg (l cap : ℚ) (h0 : 0 ≤ l) :
    0 ≤ (if cap > 0 then l / cap else 0) := by
  split_ifs with h
  · exact div_nonneg h0 h.le
  · exact le_refl 0

/-- Eq 5 is nonnegative for nonnegative weights and loads. -/
lemma usage_nonneg (E : Engine) (s : Switch) (c : Controller)
    (ha : 0 ≤ E.a) (hb : 0 ≤ E.b) (hc : 0 ≤ E.c)
    (h1 : 0 ≤ s.load_cpu) (h2 : 0 ≤ s.load_mem) (h3 : 0 ≤ s.load_bw) :
    0 ≤ switch_resource_usage E s c := by
  simp only [switch_resource_usage]
  exact add_nonneg (add_nonneg (mul_nonneg ha (guarded_ratio_nonneg _ _ h1))
    (mul_nonneg hb (guarded_ratio_nonneg _ _ h2)))
    (mul_nonneg hc (guarded_ratio_nonneg _ _ h3))

/-- Eq 7 is nonnegative for nonnegative weights and loads. -/
lemma on_target_nonneg (E : Engine) (s : Switch) (c : Controller)
    (ha : 0 ≤ E.a) (hb : 0 ≤ E.b) (hc : 0 ≤ E.c)
    (h1 : 0 ≤ s.load_cpu) (h2 : 0 ≤ s.load_mem) (h3 : 0 ≤ s.load_bw) :
    0 ≤ switch_resource_on_target E s c := by
  simp only [switch_resource_on_target]
  exact add_nonneg (add_nonneg (mul_nonneg ha (guarded_ratio_nonneg _ _ h1))
    (mul_nonneg hb (guarded_ratio_nonneg _ _ h2)))
    (mul_nonneg hc (guarded_ratio_nonneg _ _ h3))

/-- The raw load only depends on a controller through its id and
capacities. -/
lemma raw_load_congr (E : Engine) (c d : Controller) (hid : c.id = d.id)
    (h1 : c.capacity_cpu = d.capacity_cpu) (h2 : c.capacity_mem = d.capacity_mem)
    (h3 : c.capacity_bw = d.capacity_bw) : raw_load E c = raw_load E d := by
  simp only [raw_load, hid, h1, h2, h3]

/-- Bounds for the source controller raw load after its switch is removed:
it does not grow, it falls by at most the removed switch usage, and it
stays nonnegative. -/
lemma raw_load_bounds_src (G E : Engine) (ctrl : Controller) (sw : Switch)
    (hga : G.a = E.a) (hgb : G.b = E.b) (hgc : G.c = E.c)
    (ha : 0 ≤ E.a) (hb : 0 ≤ E.b) (hc : 0 ≤ E.c)
    (hcap1 : 0 < ctrl.capacity_cpu) (hcap2 : 0 < ctrl.capacity_mem)
    (hcap3 : 0 < ctrl.capacity_bw)
    (h1 : dom_sum_cpu G ctrl.id = dom_sum_cpu E ctrl.id - sw.load_cpu)
    (h2 : dom_sum_mem G ctrl.id = dom_sum_mem E ctrl.id - sw.load_mem)
    (h3 : dom_sum_bw G ctrl.id = dom_sum_bw E ctrl.id - sw.load_bw)
    (hl1 : 0 ≤ sw.load_cpu) (hl2 : 0 ≤ sw.load_mem) (hl3 : 0 ≤ sw.load_bw)
    (hle1 : sw.load_cpu ≤ dom_sum_cpu E ctrl.id)
    (hle2 : sw.load_mem ≤ dom_sum_mem E ctrl.id)
    (hle3 : sw.load_bw ≤ dom_sum_bw E ctrl.id) :
    raw_load E ctrl - switch_resource_usage E sw ctrl * 100 ≤ raw_load G ctrl ∧
    raw_load G ctrl ≤ raw_load E ctrl ∧ 0 ≤ raw_load G ctrl := by
  have hu := usage_unfold E sw ctrl hcap1 hcap2 hcap3
  simp only [raw_load, h1, h2, h3, hga, hgb, hgc, hu]
  have e1 := min_ratio_sub_ge (dom_sum_cpu E ctrl.id) sw.load_cpu ctrl.capacity_cpu hcap1 hl1
  have e2 := min_ratio_sub_ge (dom_sum_mem E ctrl.id) sw.load_mem ctrl.capacity_mem hcap2 hl2
  have e3 := min_ratio_sub_ge (dom_sum_bw E ctrl.id) sw.load_bw ctrl.capacity_bw hcap3 hl3
  have p1 := mul_le_mul_of_nonneg_left e1 ha
  have p2 := mul_le_mul_of_nonneg_left e2 hb
  have p3 := mul_le_mul_of_nonneg_left e3 hc
  rw [mul_sub] at p1 p2 p3
  have g1 := min_ratio_mono (dom_sum_cpu E ctrl.id)
    (dom_sum_cpu E ctrl.id - sw.load_cpu) ctrl.capacity_cpu hcap1 (by linarith)
  have g2 := min_ratio_mono (dom_sum_mem E ctrl.id)
    (dom_sum_mem E ctrl.id - sw.load_mem) ctrl.capacity_mem hcap2 (by linarith)
  have g3 := min_ratio_mono (dom_sum_bw E ctrl.id)
    (dom_sum_bw E ctrl.id - sw.load_bw) ctrl.capacity_bw hcap3 (by linarith)
  have q1 := mul_le_mul_of_nonneg_left g1 ha
  have q2 := mul_le_mul_of_nonneg_left g2 hb
  have q3 := mul_le_mul_of_nonneg_left g3 hc
  have n1 := mul_nonneg ha (min_ratio_nonneg (dom_sum_cpu E ctrl.id - sw.load_cpu)
    ctrl.capacity_cpu (by linarith) hcap1)
  have n2 := mul_nonneg hb (min_ratio_nonneg (dom_sum_mem E ctrl.id - sw.load_mem)
    ctrl.capacity_mem (by linarith) hcap2)
  have n3 := mul_nonneg hc (min_ratio_nonneg (dom_sum_bw E ctrl.id - sw.load_bw)
    ctrl.capacity_bw (by linarith) hcap3)
  refine ⟨by linarith, by linarith, by linarith⟩

/-- Bounds for the target controller raw load after the switch is added:
it does not shrink, it grows by at most the switch's projected usage on the
target, and the pre-migration raw load is nonnegative. -/
lemma raw_load_bounds_tgt (G E : Engine) (ctrl : Controller) (sw : Switch)
    (hga : G.a = E.a) (hgb : G.b = E.b) (hgc : G.c = E.c)
    (ha : 0 ≤ E.a) (hb : 0 ≤ E.b) (hc : 0 ≤ E.c)
    (hcap1 : 0 < ctrl.capacity_cpu) (hcap2 : 0 < ctrl.capacity_mem)
    (hcap3 : 0 < ctrl.capacity_bw)
    (h1 : dom_sum_cpu G ctrl.id = dom_sum_cpu E ctrl.id + sw.load_cpu)
    (h2 : dom_sum_mem G ctrl.id = dom_sum_mem E ctrl.id + sw.load_mem)
    (h3 : dom_sum_bw G ctrl.id = dom_sum_bw E ctrl.id + sw.load_bw)
    (hl1 : 0 ≤ sw.load_cpu) (hl2 : 0 ≤ sw.load_mem) (hl3 : 0 ≤ sw.load_bw)
    (hS1 : 0 ≤ dom_sum_cpu E ctrl.id) (hS2 : 0 ≤ dom_sum_mem E ctrl.id)
    (hS3 : 0 ≤ dom_sum_bw E ctrl.id) :
    raw_load E ctrl ≤ raw_load G ctrl ∧
    raw_load G ctrl ≤ raw_load E ctrl + switch_resource_on_target E sw ctrl * 100 ∧
    0 ≤ raw_load E ctrl := by
  have hu := on_target_unfold E sw ctrl hcap1 hcap2 hcap3
  simp only [raw_load, h1, h2, h3, hga, hgb, hgc, hu]
  have e1 := min_ratio_add_le (dom_sum_cpu E ctrl.id) sw.load_cpu ctrl.capacity_cpu hcap1 hl1
  have e2 := min_ratio_add_le (dom_sum_mem E ctrl.id) sw.load_mem ctrl.capacity_mem hcap2 hl2
  have e3 := min_ratio_add_le (dom_sum_bw E ctrl.id) sw.load_bw ctrl.capacity_bw hcap3 hl3
  have p1 := mul_le_mul_of_nonneg_left e1 ha
  have p2 := mul_le_mul_of_nonneg_left e2 hb
  have p3 := mul_le_mul_of_nonneg_left e3 hc
  rw [mul_add] at p1 p2 p3
  have g1 := min_ratio_mono (dom_sum_cpu E ctrl.id + sw.load_cpu)
    (dom_sum_cpu E ctrl.id) ctrl.capacity_cpu hcap1 (by linarith)
  have g2 := min_ratio_mono (dom_sum_mem E ctrl.id + sw.load_mem)
    (dom_sum_mem E ctrl.id) ctrl.capacity_mem hcap2 (by linarith)
  have g3 := min_ratio_mono (dom_sum_bw E ctrl.id + sw.load_bw)
    (dom_sum_bw E ctrl.id) ctrl.capacity_bw hcap3 (by linarith)
  have q1 := mul_le_mul_of_nonneg_left g1 ha
  have q2 := mul_le_mul_of_nonneg_left g2 hb
  have q3 := mul_le_mul_of_nonneg_left g3 hc
  have n1 := mul_nonneg ha (min_ratio_nonneg (dom_sum_cpu E ctrl.id)
    ctrl.capacity_cpu hS1 hcap1)
  have n2 := mul_nonneg hb (min_ratio_nonneg (dom_sum_mem E ctrl.id)
    ctrl.capacity_mem hS2 hcap2)
  have n3 := mul_nonneg hc (min_ratio_nonneg (dom_sum_bw E ctrl.id)
    ctrl.capacity_bw hS3 hcap3)
  refine ⟨by linarith, by linarith, by linarith⟩

/-- The capped post-migration source load is at least the planner's
predicted source load. -/
lemma capped_bounds_src (r r' U : ℚ) (hge : r - U * 100 ≤ r') (h0 : 0 ≤ r')
    (hU : 0 ≤ U) : max (min r 100 - U * 100) 0 ≤ min r' 100 := by
  apply max_le
  · rcases le_or_lt 100 r' with h | h
    · rw [min_eq_right h]
      have := min_le_right r 100
      linarith
    · rw [min_eq_left h.le]
      have := min_le_left r 100
      linarith
  · exact le_min h0 (by norm_num)

/-- The pairwise imbalance is the bare two-argument formula on loads. -/
lemma pairwise_eq_dc (c1 c2 : Controller) :
    pairwise_imbalance c1 c2 = dc_pair c1.load_percentage c2.load_percentage := rfl

/-- The bare pairwise formula is nonnegative. -/
lemma dc_pair_nonneg (x y : ℚ) : 0 ≤ dc_pair x y := by
  unfold dc_pair
  split_ifs with h
  · exact le_refl 0
  · push_neg at h
    exact div_nonneg (abs_nonneg _) (by linarith)

/-- A finite migration efficiency means the planner predicted a pairwise
imbalance improvement of more than 0.001. -/
lemma migration_efficiency_some (E : Engine) (sw : Switch) (src tgt : Controller)
    (e : ℚ) (h : migration_efficiency E sw src tgt = some e) :
    1/1000 < pairwise_imbalance src tgt -
      dc_pair (max (src.load_percentage - switch_resource_usage E sw src * 100) 0)
        (min (tgt.load_percentage + switch_resource_on_target E sw tgt * 100) 100) := by
  simp only [migration_efficiency] at h
  split_ifs at h with hd
  push_neg at hd
  exact hd

/-- The key arithmetic fact behind C4: under the planner's predicted
improvement and the sandwich bounds relating actual post-migration loads to
the predictions, the recomputed pairwise imbalance cannot exceed the
decision-time one. -/
lemma dc_key (L1 L2 L1' L2' ps pt : ℚ)
    (hL1 : 50 ≤ L1) (hL2 : L2 < 50) (hL2n : 0 ≤ L2)
    (h1le : L1' ≤ L1) (h2ge : L2 ≤ L2')
    (hps0 : 0 ≤ ps) (hpsle : ps ≤ L1') (h2le : L2' ≤ pt)
    (hdelta : 1/1000 < dc_pair L1 L2 - dc_pair ps pt) :
    dc_pair L1' L2' ≤ dc_pair L1 L2 := by
  have hL1pos : (0:ℚ) < L1 := by linarith
  have hL2L1 : L2 ≤ L1 := by linarith
  have hdcB : dc_pair L1 L2 = (L1 - L2)/L1 := by
    unfold dc_pair
    rw [max_eq_left hL2L1, if_neg (by push_neg; linarith), abs_of_nonneg (by linarith)]
  have hdcB0 : 0 ≤ dc_pair L1 L2 := dc_pair_nonneg L1 L2
  by_cases hm : max L1' L2' < 1/100
  · have hz : dc_pair L1' L2' = 0 := by
      unfold dc_pair
      rw [if_pos hm]
    rw [hz]
    exact hdcB0
  · push_neg at hm
    rcases le_total L2' L1' with hcase | hcase
    · rw [max_eq_left hcase] at hm
      have hL1'pos : (0:ℚ) < L1' := by linarith
      have hval : dc_pair L1' L2' = (L1' - L2')/L1' := by
        unfold dc_pair
        rw [max_eq_left hcase, if_neg (by push_neg; linarith),
          abs_of_nonneg (by linarith)]
      rw [hval, hdcB, div_le_div_iff₀ hL1'pos hL1pos]
      have k1 : L2 * L1' ≤ L2' * L1' := mul_le_mul_of_nonneg_right h2ge hL1'pos.le
      have k2 : L2' * L1' ≤ L2' * L1 := mul_le_mul_of_nonneg_left h1le (by linarith)
      nlinarith [k1, k2]
    · rw [max_eq_right hcase] at hm
      have hL2'pos : (0:ℚ) < L2' := by linarith
      have hval : dc_pair L1' L2' = (L2' - L1')/L2' := by
        unfold dc_pair
        rw [max_eq_right hcase, if_neg (by push_neg; linarith), abs_sub_comm,
          abs_of_nonneg (by linarith)]
      rw [hval]
      have hptpos : (0:ℚ) < pt := by linarith
      have hpspt : ps ≤ pt := by linarith
      have hdcP : dc_pair ps pt = (pt - ps)/pt := by
        unfold dc_pair
        rw [max_eq_right hpspt, if_neg (by push_neg; linarith), abs_sub_comm,
          abs_of_nonneg (by linarith)]
      have step1 : (L2' - L1')/L2' ≤ (pt - ps)/pt := by
        rw [div_le_div_iff₀ hL2'pos hptpos]
        have k1 : ps * L2' ≤ L1' * L2' := mul_le_mul_of_nonneg_right hpsle hL2'pos.le
        have k2 : L1' * L2' ≤ L1' * pt := mul_le_mul_of_nonneg_left h2le (by linarith)
        nlinarith [k1, k2]
      rw [hdcP] at hdelta
      linarith

/-- C4: every migration record committed by `run_load_balancing` has
`imbalance_after ≤ imbalance_before` — the pairwise imbalance of the
(source, target) pair recomputed from actual loads after the ownership
change never exceeds the decision-time pairwise imbalance — given
nonnegative weight coefficients, strictly positive capacities, nonnegative
per-switch loads, and unique switch ids. -/
theorem c4_committed_migration_no_worse (E : Engine) (ok : Bool)
    (rec : MigrationRecord)
    (ha : 0 ≤ E.a) (hb : 0 ≤ E.b) (hc : 0 ≤ E.c)
    (hcap : ∀ c ∈ E.controllers,
      0 < c.capacity_cpu ∧ 0 < c.capacity_mem ∧ 0 < c.capacity_bw)
    (hload : ∀ s ∈ E.switches, 0 ≤ s.load_cpu ∧ 0 ≤ s.load_mem ∧ 0 ≤ s.load_bw)
    (hids : (E.switches.map Switch.id).Nodup)
    (h : (run_load_balancing E ok).2 = some rec) :
    rec.imbalance_after ≤ rec.imbalance_before := by
  simp only [run_load_balancing] at h
  split at h
  · simp at h
  · rename_i sw src tgt i hsel
    cases ok with
    | false =>
      rw [execute_migration_not_ok] at h
      simp at h
    | true =>
      obtain ⟨hsrc, e, hfb⟩ := select_best_sound (recompute_all E) sw src tgt i hsel
      obtain ⟨hdom, htgt, hme, hi, _⟩ :=
        find_best_migration_sound (recompute_all E) src sw tgt e i hfb
      obtain ⟨hsrcmem, hsrcact, hsrclevel⟩ := rlb_sources_spec (recompute_all E) src hsrc
      obtain ⟨htgtmem, htgtact, htgtidne, htgtlevel⟩ :=
        fbm_targets_spec (recompute_all E) src tgt htgt
      obtain ⟨hswmem, hswown⟩ := dom_switches_spec (recompute_all E) src.id sw hdom
      have hswE : sw ∈ E.switches := hswmem
      obtain ⟨hl1, hl2, hl3⟩ := hload sw hswE
      obtain ⟨c0, hc0, hsrc_eq⟩ := recompute_mem E src hsrcmem
      obtain ⟨d0, hd0, htgt_eq⟩ := recompute_mem E tgt htgtmem
      have hcf := compute_load_fields E c0
      have hdf := compute_load_fields E d0
      obtain ⟨hc0cap1, hc0cap2, hc0cap3⟩ := hcap c0 hc0
      obtain ⟨hd0cap1, hd0cap2, hd0cap3⟩ := hcap d0 hd0
      have hscap1 : 0 < src.capacity_cpu := by rw [hsrc_eq, hcf.2.2.1]; exact hc0cap1
      have hscap2 : 0 < src.capacity_mem := by rw [hsrc_eq, hcf.2.2.2.1]; exact hc0cap2
      have hscap3 : 0 < src.capacity_bw := by rw [hsrc_eq, hcf.2.2.2.2]; exact hc0cap3
      have htcap1 : 0 < tgt.capacity_cpu := by rw [htgt_eq, hdf.2.2.1]; exact hd0cap1
      have htcap2 : 0 < tgt.capacity_mem := by rw [htgt_eq, hdf.2.2.2.1]; exact hd0cap2
      have htcap3 : 0 < tgt.capacity_bw := by rw [htgt_eq, hdf.2.2.2.2]; exact hd0cap3
      have hidsrc : src.id = c0.id := by rw [hsrc_eq]; exact hcf.1
      have hidtgt : tgt.id = d0.id := by rw [htgt_eq]; exact hdf.1
      have hsc1 : src.capacity_cpu = c0.capacity_cpu := by rw [hsrc_eq]; exact hcf.2.2.1
      have hsc2 : src.capacity_mem = c0.capacity_mem := by rw [hsrc_eq]; exact hcf.2.2.2.1
      have hsc3 : src.capacity_bw = c0.capacity_bw := by rw [hsrc_eq]; exact hcf.2.2.2.2
      have htc1 : tgt.capacity_cpu = d0.capacity_cpu := by rw [htgt_eq]; exact hdf.2.2.1
      have htc2 : tgt.capacity_mem = d0.capacity_mem := by rw [htgt_eq]; exact hdf.2.2.2.1
      have htc3 : tgt.capacity_bw = d0.capacity_bw := by rw [htgt_eq]; exact hdf.2.2.2.2
      have hL1val : src.load_percentage = min (raw_load (recompute_all E) src) 100 := by
        conv_lhs => rw [hsrc_eq]
        rw [compute_load_value, raw_load_congr E c0 src hidsrc.symm hsc1.symm hsc2.symm hsc3.symm]
        rfl
      have hL2val : tgt.load_percentage = min (raw_load (recompute_all E) tgt) 100 := by
        conv_lhs => rw [htgt_eq]
        rw [compute_load_value, raw_load_congr E d0 tgt hidtgt.symm htc1.symm htc2.symm htc3.symm]
        rfl
      have hlvl1 : src.level = level_of_load src.load_percentage := by
        conv_lhs => rw [hsrc_eq]
        rw [compute_load_level, ← hsrc_eq]
      have hlvl2 : tgt.level = level_of_load tgt.load_percentage := by
        conv_lhs => rw [htgt_eq]
        rw [compute_load_level, ← htgt_eq]
      have hL1_50 : 50 ≤ src.load_percentage := by
        apply level_high_load
        rw [← hlvl1]
        exact hsrclevel
      have hL2_50 : tgt.load_percentage < 50 := by
        apply level_low_load
        rw [← hlvl2]
        exact htgtlevel
      have hownne : sw.controller_id ≠ tgt.id := by
        rw [hswown]
        exact Ne.symm htgtidne
      have hsum1 : dom_sum_cpu (reassign (recompute_all E) sw tgt.id) src.id =
          dom_sum_cpu (recompute_all E) src.id - sw.load_cpu := by
        have h0 := reassign_filter_src tgt.id Switch.load_cpu E.switches sw hswE hids hownne
        rw [hswown] at h0
        exact h0
      have hsum2 : dom_sum_mem (reassign (recompute_all E) sw tgt.id) src.id =
          dom_sum_mem (recompute_all E) src.id - sw.load_mem := by
        have h0 := reassign_filter_src tgt.id Switch.load_mem E.switches sw hswE hids hownne
        rw [hswown] at h0
        exact h0
      have hsum3 : dom_sum_bw (reassign (recompute_all E) sw tgt.id) src.id =
          dom_sum_bw (recompute_all E) src.id - sw.load_bw := by
        have h0 := reassign_filter_src tgt.id Switch.load_bw E.switches sw hswE hids hownne
        rw [hswown] at h0
        exact h0
      have hsum4 : dom_sum_cpu (reassign (recompute_all E) sw tgt.id) tgt.id =
          dom_sum_cpu (recompute_all E) tgt.id + sw.load_cpu :=
        reassign_filter_tgt tgt.id Switch.load_cpu (fun s => rfl) E.switches sw hswE hids hownne
      have hsum5 : dom_sum_mem (reassign (recompute_all E) sw tgt.id) tgt.id =
          dom_sum_mem (recompute_all E) tgt.id + sw.load_mem :=
        reassign_filter_tgt tgt.id Switch.load_mem (fun s => rfl) E.switches sw hswE hids hownne
      have hsum6 : dom_sum_bw (reassign (recompute_all E) sw tgt.id) tgt.id =
          dom_sum_bw (recompute_all E) tgt.id + sw.load_bw :=
        reassign_filter_tgt tgt.id Switch.load_bw (fun s => rfl) E.switches sw hswE hids hownne
      have hle1 : sw.load_cpu ≤ dom_sum_cpu (recompute_all E) src.id :=
        single_le_dom_sum (recompute_all E) src.id Switch.load_cpu
          (fun s hs => (hload s hs).1) sw hdom
      have hle2 : sw.load_mem ≤ dom_sum_mem (recompute_all E) src.id :=
        single_le_dom_sum (recompute_all E) src.id Switch.load_mem
          (fun s hs => (hload s hs).2.1) sw hdom
      have hle3 : sw.load_bw ≤ dom_sum_bw (recompute_all E) src.id :=
        single_le_dom_sum (recompute_all E) src.id Switch.load_bw
          (fun s hs => (hload s hs).2.2) sw hdom
      have hS1 : 0 ≤ dom_sum_cpu (recompute_all E) tgt.id :=
        dom_sum_nonneg (recompute_all E) tgt.id Switch.load_cpu (fun s hs => (hload s hs).1)
      have hS2 : 0 ≤ dom_sum_mem (recompute_all E) tgt.id :=
        dom_sum_nonneg (recompute_all E) tgt.id Switch.load_mem (fun s hs => (hload s hs).2.1)
      have hS3 : 0 ≤ dom_sum_bw (recompute_all E) tgt.id :=
        dom_sum_nonneg (recompute_all E) tgt.id Switch.load_bw (fun s hs => (hload s hs).2.2)
      have hb_src := raw_load_bounds_src (reassign (recompute_all E) sw tgt.id)
        (recompute_all E) src sw rfl rfl rfl ha hb hc hscap1 hscap2 hscap3
        hsum1 hsum2 hsum3 hl1 hl2 hl3 hle1 hle2 hle3
      have hb_tgt := raw_load_bounds_tgt (reassign (recompute_all E) sw tgt.id)
        (recompute_all E) tgt sw rfl rfl rfl ha hb hc htcap1 htcap2 htcap3
        hsum4 hsum5 hsum6 hl1 hl2 hl3 hS1 hS2 hS3
      have hU1 : 0 ≤ switch_resource_usage (recompute_all E) sw src :=
        usage_nonneg (recompute_all E) sw src ha hb hc hl1 hl2 hl3
      have hL2n : 0 ≤ tgt.load_percentage := by
        rw [hL2val]
        exact le_min hb_tgt.2.2 (by norm_num)
      have h1le : min (raw_load (reassign (recompute_all E) sw tgt.id) src) 100 ≤
          src.load_percentage := by
        rw [hL1val]
        exact min_le_min hb_src.2.1 (le_refl 100)
      have h2ge : tgt.load_percentage ≤
          min (raw_load (reassign (recompute_all E) sw tgt.id) tgt) 100 := by
        rw [hL2val]
        exact min_le_min hb_tgt.1 (le_refl 100)
      have hpsle : max (src.load_percentage -
            switch_resource_usage (recompute_all E) sw src * 100) 0 ≤
          min (raw_load (reassign (recompute_all E) sw tgt.id) src) 100 := by
        rw [hL1val]
        exact capped_bounds_src (raw_load (recompute_all E) src)
          (raw_load (reassign (recompute_all E) sw tgt.id) src)
          (switch_resource_usage (recompute_all E) sw src) hb_src.1 hb_src.2.2 hU1
      have hraw2lt : raw_load (recompute_all E) tgt < 100 := by
        by_contra hcon
        push_neg at hcon
        rw [hL2val, min_eq_right hcon] at hL2_50
        norm_num at hL2_50
      have hL2raw : tgt.load_percentage = raw_load (recompute_all E) tgt := by
        rw [hL2val, min_eq_left hraw2lt.le]
      have h2le : min (raw_load (reassign (recompute_all E) sw tgt.id) tgt) 100 ≤
          min (tgt.load_percentage +
            switch_resource_on_target (recompute_all E) sw tgt * 100) 100 := by
        rw [hL2raw]
        exact min_le_min hb_tgt.2.1 (le_refl 100)
      have hdelta := migration_efficiency_some (recompute_all E) sw src tgt e hme
      rw [pairwise_eq_dc] at hdelta
      simp only [execute_migration, Bool.not_true, Bool.false_eq_true, if_false] at h
      have hrec := Option.some.inj h
      have hbefore : rec.imbalance_before = i.dc_before := by rw [← hrec]
      have hafter : rec.imbalance_after =
          pairwise_imbalance
            (compute_controller_load (reassign (recompute_all E) sw tgt.id) src)
            (compute_controller_load (reassign (recompute_all E) sw tgt.id) tgt) := by
        rw [← hrec]
      rw [hafter, hbefore, hi]
      simp only [mk_info]
      rw [pairwise_eq_dc, compute_load_value, compute_load_value, pairwise_eq_dc]
      exact dc_key src.load_percentage tgt.load_percentage
        (min (raw_load (reassign (recompute_all E) sw tgt.id) src) 100)
        (min (raw_load (reassign (recompute_all E) sw tgt.id) tgt) 100)
        (max (src.load_percentage -
          switch_resource_usage (recompute_all E) sw src * 100) 0)
        (min (tgt.load_percentage +
          switch_resource_on_target (recompute_all E) sw tgt * 100) 100)
        hL1_50 hL2_50 hL2n h1le h2ge (le_max_right _ _) hpsle h2le hdelta

/-- Witness for C4 at a concrete committing scenario. -/
theorem c4_committed_migration_no_worse_witness :
    (0 ≤ c4_eng.a ∧ 0 ≤ c4_eng.b ∧ 0 ≤ c4_eng.c ∧
     (∀ c ∈ c4_eng.controllers,
        0 < c.capacity_cpu ∧ 0 < c.capacity_mem ∧ 0 < c.capacity_bw) ∧
     (∀ s ∈ c4_eng.switches, 0 ≤ s.load_cpu ∧ 0 ≤ s.load_mem ∧ 0 ≤ s.load_bw) ∧
     (c4_eng.switches.map Switch.id).Nodup ∧
     (run_load_balancing c4_eng true).2 = some c4_rec) ∧
    c4_rec.imbalance_after ≤ c4_rec.imbalance_before := by
  have hrun : (run_load_balancing c4_eng true).2 = some c4_rec := by
    iterate 3
      try simp [run_load_balancing, recompute_all, compute_controller_load, dom_switches,
        c4_eng, c4_rec, zero_rec, mk_ctrl, mk_sw, DEFAULT_ALPHA, DEFAULT_BETA, DEFAULT_GAMMA,
        TRAFFIC_TO_CPU_FACTOR, TRAFFIC_TO_MEM_FACTOR, TRAFFIC_TO_BW_FACTOR,
        List.filter_cons, select_best, rlb_step, rlb_sources, find_best_migration,
        fbm_targets, fbm_step, eff_lt, migration_efficiency, dc_pair, migration_cost,
        switch_resource_usage, switch_resource_on_target, pairwise_imbalance,
        execute_migration, reassign, mk_info, level_of_load, THRESHOLDS]
      try norm_num [min_def, max_def, abs_eq_max_neg]
  have hcapw : ∀ c ∈ c4_eng.controllers,
      0 < c.capacity_cpu ∧ 0 < c.capacity_mem ∧ 0 < c.capacity_bw := by
    intro c hc
    simp only [c4_eng, mk_ctrl, List.mem_cons, List.not_mem_nil, or_false] at hc
    rcases hc with rfl | rfl <;> norm_num
  have hloadw : ∀ s ∈ c4_eng.switches,
      0 ≤ s.load_cpu ∧ 0 ≤ s.load_mem ∧ 0 ≤ s.load_bw := by
    intro s hs
    simp only [c4_eng, mk_sw, List.mem_cons, List.not_mem_nil, or_false] at hs
    rcases hs with rfl | rfl | rfl <;>
      norm_num [TRAFFIC_TO_CPU_FACTOR, TRAFFIC_TO_MEM_FACTOR, TRAFFIC_TO_BW_FACTOR]
  have hidsw : (c4_eng.switches.map Switch.id).Nodup := by decide
  refine ⟨⟨by norm_num [c4_eng, DEFAULT_ALPHA], by norm_num [c4_eng, DEFAULT_BETA],
    by norm_num [c4_eng, DEFAULT_GAMMA], hcapw, hloadw, hidsw, hrun⟩, ?_⟩
  exact c4_committed_migration_no_worse c4_eng true c4_rec
    (by norm_num [c4_eng, DEFAULT_ALPHA]) (by norm_num [c4_eng, DEFAULT_BETA])
    (by norm_num [c4_eng, DEFAULT_GAMMA]) hcapw hloadw hidsw hrun

end DLBMT
